import Mathlib

/-!
Verification of the AWS Secure Network Builder orchestration pipeline.

Shallow embedding of `builder.py` and the manager modules
(`modules/vpc.py`, `modules/gateways.py`, `modules/security.py`,
`modules/utils.py`).  The cloud provider is modelled as an oracle
(`Provider`) deciding the outcome of every manager-level call; the
orchestrator functions return, besides their result, the trace of
provider-facing calls they issued, so that ordering and persistence
properties can be stated about the trace.
-/

namespace NetworkBuilder

/-- Python truthiness of an optional string (`None` and `""` are falsy). -/
def truthyS : Option String → Bool
  | none => false
  | some s => !s.isEmpty

/-- Python dict assignment `d[k] = v`: replace in place if the key exists
(keeping its position, as Python dicts do), otherwise append. -/
def dictSet {α : Type} : List (String × α) → String → α → List (String × α)
  | [], k, v => [(k, v)]
  | (k', v') :: t, k, v =>
    if k' = k then (k, v) :: t else (k', v') :: dictSet t k v

/-- Python `d.get(k)`: first (unique) binding of `k`, if any. -/
def dictGet {α : Type} : List (String × α) → String → Option α
  | [], _ => none
  | (k', v') :: t, k => if k' = k then some v' else dictGet t k

/-- Does a character list start with the given pattern? -/
def startsWithChars : List Char → List Char → Bool
  | _, [] => true
  | [], _ :: _ => false
  | a :: as, b :: bs => a = b && startsWithChars as bs

/-- Substring occurrence test on character lists. -/
def containsChars : List Char → List Char → Bool
  | [], pat => pat.isEmpty
  | a :: rest, pat => startsWithChars (a :: rest) pat || containsChars rest pat

/-- Python `pat in s` substring test. -/
def containsSubstr (s pat : String) : Bool :=
  containsChars s.toList pat.toList

/-- Python `str.split(sep)` for a single-character separator
(`"".split "."` gives `[""]`, separators at the ends give empty pieces). -/
def splitOnChar (c : Char) : List Char → List (List Char)
  | [] => [[]]
  | x :: xs =>
    if x = c then [] :: splitOnChar c xs
    else
      match splitOnChar c xs with
      | [] => [[x]]
      | h :: t => (x :: h) :: t

/-!  Model of `modules/utils.py` `validate_cidr`, i.e. of Python's
`ipaddress.IPv4Network(cidr_block)` with the default `strict=True`. -/

/-- Decimal value of an all-digit character list. -/
def digitsVal (s : List Char) : Nat :=
  s.foldl (fun a ch => a * 10 + (ch.toNat - 48)) 0

/-- `ipaddress._parse_octet`: at most 3 ASCII digits, no leading zeros,
value at most 255. -/
def _parse_octet (s : List Char) : Option Nat :=
  if s.isEmpty then none
  else if !(s.all Char.isDigit) then none
  else if s.length > 3 then none
  else if (match s with | a :: _ :: _ => a == '0' | _ => false) then none
  else
    let n := digitsVal s
    if n > 255 then none else some n

/-- `ipaddress.IPv4Address._ip_int_from_string`: exactly four octets. -/
def _ip_int_from_string (s : List Char) : Option Nat :=
  match (splitOnChar '.' s).mapM _parse_octet with
  | some [a, b, c, d] => some (((a * 256 + b) * 256 + c) * 256 + d)
  | _ => none

/-- `ipaddress._IPAddressBase._prefix_from_prefix_string`: ASCII digits
only (no sign, no whitespace), value at most 32. -/
def _prefix_from_prefix_string (s : List Char) : Option Nat :=
  if s.isEmpty || !(s.all Char.isDigit) then none
  else
    let n := digitsVal s
    if n ≤ 32 then some n else none

/-- `ipaddress._IPAddressBase._prefix_from_ip_int`: the integer must be a
contiguous netmask (`p` leading one bits followed by zero bits). -/
def _prefix_from_ip_int (n : Nat) : Option Nat :=
  (List.range 33).find? (fun p => n == 2 ^ 32 - 2 ^ (32 - p))

/-- `ipaddress.IPv4Network._make_netmask` for a string argument: try a
decimal prefix length, then a dotted netmask, then a dotted hostmask. -/
def _make_netmask (s : List Char) : Option Nat :=
  match _prefix_from_prefix_string s with
  | some p => some p
  | none =>
    match _ip_int_from_string s with
    | some ip =>
      match _prefix_from_ip_int ip with
      | some p => some p
      | none => _prefix_from_ip_int (ip ^^^ (2 ^ 32 - 1))
    | none => none

/-- `modules/utils.py` `validate_cidr`: true iff
`ipaddress.IPv4Network(cidr_block)` succeeds (strict mode: the host bits
below the prefix must be zero; a bare address gets prefix 32). -/
def validate_cidr (cidr_block : String) : Bool :=
  match splitOnChar '/' cidr_block.toList with
  | [addr] => (_ip_int_from_string addr).isSome
  | [addr, mask] =>
    match _ip_int_from_string addr, _make_netmask mask with
    | some ip, some p => ip % 2 ^ (32 - p) == 0
    | _, _ => false
  | _ => false

/-! Configuration (§6 of the spec; `load_config` guarantees the required
top-level fields are present, which the structure encodes). -/

structure SubnetSpec where
  name : String
  cidr : String
  az : String
  type : String
deriving DecidableEq

structure IngressSpec where
  protocol : String
  from_port : Int
  to_port : Int
  cidr : String
deriving DecidableEq

structure NatCfg where
  enabled : Bool
deriving DecidableEq

structure Config where
  vpc_name : String
  cidr : String
  region : String
  subnets : List SubnetSpec
  enable_dns_hostnames : Option Bool := none
  enable_dns_support : Option Bool := none
  tags : List (String × String) := []
  nat_gateway : Option NatCfg := none
  security_groups : List (String × List IngressSpec) := []
deriving DecidableEq

/-- `config.get('nat_gateway', {}).get('enabled', False)`. -/
def Config.natEnabled (c : Config) : Bool :=
  (c.nat_gateway.map NatCfg.enabled).getD false

/-! Deployment state (`self.state` in `AWSNetworkBuilder.__init__`). -/

structure SubnetInfo where
  id : String
  cidr : String
  az : String
  type : String
deriving DecidableEq

structure NatInfo where
  id : String
  elastic_ip : String
deriving DecidableEq

structure Gateways where
  internet_gateway : Option String := none
  nat_gateway : Option NatInfo := none
deriving DecidableEq

structure DeployState where
  vpc_id : Option String := none
  subnets : List (String × SubnetInfo) := []
  security_groups : List (String × String) := []
  route_tables : List (String × String) := []
  gateways : Gateways := {}
deriving DecidableEq

def initState : DeployState := {}

/-! `modules/vpc.py` `VPCManager.add_route`: the keyword-argument record
passed to the provider's `create_route` call. -/

structure RouteParams where
  RouteTableId : String
  DestinationCidrBlock : String
  GatewayId : Option String := none
  NatGatewayId : Option String := none
deriving DecidableEq

namespace VPCManager

/-- The `route_params` dict built by `VPCManager.add_route`:
`if gateway_id: ... elif nat_gateway_id: ...` (Python truthiness). -/
def add_route_params (route_table_id destination_cidr : String)
    (gateway_id nat_gateway_id : Option String) : RouteParams :=
  let route_params : RouteParams :=
    { RouteTableId := route_table_id, DestinationCidrBlock := destination_cidr }
  if truthyS gateway_id then { route_params with GatewayId := gateway_id }
  else if truthyS nat_gateway_id then
    { route_params with NatGatewayId := nat_gateway_id }
  else route_params

end VPCManager

/-- Outcome of the provider's `authorize_security_group_ingress` call:
success, or a `ClientError` whose string form is `msg`. -/
inductive ClientRes
  | ok
  | err (msg : String)
deriving DecidableEq

namespace SecurityManager

/-- `modules/security.py` `SecurityManager.add_ingress_rule`: outcome
`(raised, warned)` of the except-clause logic given the client response;
a message containing `InvalidPermission.Duplicate` is swallowed with a
warning, any other error re-raises. -/
def add_ingress_rule (res : ClientRes) : Bool × Bool :=
  match res with
  | .ok => (false, false)
  | .err m =>
    if containsSubstr m "InvalidPermission.Duplicate" then (false, true)
    else (true, false)

end SecurityManager

/-- A duplicate-reporting fake client for the idempotence property: it
records authorized rules and reports `InvalidPermission.Duplicate` when
an identical rule is submitted again. -/
structure FakeSG where
  rules : List (String × String × Int × Int × String) := []
deriving DecidableEq

def fakeAuthorize (st : FakeSG) (sg protocol : String)
    (from_port to_port : Int) (cidr : String) : FakeSG × ClientRes :=
  if (sg, protocol, from_port, to_port, cidr) ∈ st.rules then
    (st, .err "An error occurred (InvalidPermission.Duplicate) when calling the AuthorizeSecurityGroupIngress operation")
  else
    ({ rules := st.rules ++ [(sg, protocol, from_port, to_port, cidr)] }, .ok)

/-- Two identical `add_ingress_rule` calls against the duplicate-reporting
fake client: the `(raised, warned)` outcomes of the first and second call. -/
def twoCallOutcome (st : FakeSG) (sg protocol : String)
    (from_port to_port : Int) (cidr : String) : (Bool × Bool) × (Bool × Bool) :=
  let r1 := fakeAuthorize st sg protocol from_port to_port cidr
  let o1 := SecurityManager.add_ingress_rule r1.2
  let r2 := fakeAuthorize r1.1 sg protocol from_port to_port cidr
  (o1, SecurityManager.add_ingress_rule r2.2)

/-! The provider oracle: one function per manager-level operation the
orchestrator invokes.  `none` (resp. `ClientRes.err`) models the call
raising `ProviderError`. -/

structure Provider where
  create_vpc : String → String → Bool → Bool → List (String × String) → Option String
  create_internet_gateway : String → String → Option String
  create_route_table : String → String → Option String
  create_route : RouteParams → Option Unit
  create_subnet : String → String → String → String → String → Option String
  associate_route_table : String → String → Option Unit
  create_nat_gateway : String → String → Option (String × String)
  create_security_group : String → String → String → Option String
  authorize_security_group_ingress : String → String → Int → Int → String → ClientRes
  delete_nat_gateway : String → Option Unit
  delete_internet_gateway : String → String → Option Unit
  delete_subnet : String → Option Unit
  delete_route_table : String → Option Unit
  delete_security_group : String → Option Unit
  delete_vpc : String → Option Unit

/-- One provider-facing action of the deployment pipeline, with its
arguments and its outcome.  `exportState` is the state-file write of
`_export_state` (carrying the persisted content). -/
inductive Event
  | createVpc (cidr name : String) (dnsHostnames dnsSupport : Bool)
      (tags : List (String × String)) (r : Option String)
  | createInternetGateway (vpc name : String) (r : Option String)
  | createRouteTable (vpc name : String) (r : Option String)
  | addRoute (params : RouteParams) (r : Option Unit)
  | createSubnet (vpc cidr az name type : String) (r : Option String)
  | associateRouteTable (subnet rt : String) (r : Option Unit)
  | createNatGateway (subnet name : String) (r : Option (String × String))
  | warnNoPublicSubnet
  | createSecurityGroup (vpc name desc : String) (r : Option String)
  | addIngressRule (sg protocol : String) (from_port to_port : Int)
      (cidr : String) (r : ClientRes)
  | exportState (file : String) (content : DeployState)
deriving DecidableEq

/-! The deployment steps of `AWSNetworkBuilder` (builder.py).  Each step
takes the accumulated state and returns the new state, the list of
provider-facing events it issued, and whether it completed without an
exception.  On an exception the state mutations of the step that were not
yet executed are lost, exactly as in the source (state writes happen after
the provider calls they depend on). -/

def _create_vpc (c : Config) (p : Provider) (st : DeployState) :
    DeployState × List Event × Bool :=
  let dnsH := c.enable_dns_hostnames.getD true
  let dnsS := c.enable_dns_support.getD true
  match p.create_vpc c.cidr c.vpc_name dnsH dnsS c.tags with
  | some vpc_id =>
    ({ st with vpc_id := some vpc_id },
     [Event.createVpc c.cidr c.vpc_name dnsH dnsS c.tags (some vpc_id)], true)
  | none =>
    (st, [Event.createVpc c.cidr c.vpc_name dnsH dnsS c.tags none], false)

def _create_internet_gateway (c : Config) (p : Provider) (st : DeployState) :
    DeployState × List Event × Bool :=
  let name := c.vpc_name ++ "-igw"
  match p.create_internet_gateway (st.vpc_id.getD "") name with
  | some igw_id =>
    ({ st with gateways := { st.gateways with internet_gateway := some igw_id } },
     [Event.createInternetGateway (st.vpc_id.getD "") name (some igw_id)], true)
  | none =>
    (st, [Event.createInternetGateway (st.vpc_id.getD "") name none], false)

def _create_route_tables (c : Config) (p : Provider) (st : DeployState) :
    DeployState × List Event × Bool :=
  let vpc := st.vpc_id.getD ""
  let pubName := c.vpc_name ++ "-public-rt"
  let privName := c.vpc_name ++ "-private-rt"
  match p.create_route_table vpc pubName with
  | none => (st, [Event.createRouteTable vpc pubName none], false)
  | some public_rt =>
    let params :=
      VPCManager.add_route_params public_rt "0.0.0.0/0"
        st.gateways.internet_gateway none
    match p.create_route params with
    | none =>
      (st, [Event.createRouteTable vpc pubName (some public_rt),
            Event.addRoute params none], false)
    | some _ =>
      let st1 := { st with route_tables := dictSet st.route_tables "public" public_rt }
      match p.create_route_table vpc privName with
      | none =>
        (st1, [Event.createRouteTable vpc pubName (some public_rt),
               Event.addRoute params (some ()),
               Event.createRouteTable vpc privName none], false)
      | some private_rt =>
        ({ st1 with route_tables := dictSet st1.route_tables "private" private_rt },
         [Event.createRouteTable vpc pubName (some public_rt),
          Event.addRoute params (some ()),
          Event.createRouteTable vpc privName (some private_rt)], true)

def createSubnetsGo (c : Config) (p : Provider) :
    List SubnetSpec → DeployState → DeployState × List Event × Bool
  | [], st => (st, [], true)
  | sc :: rest, st =>
    let vpc := st.vpc_id.getD ""
    match p.create_subnet vpc sc.cidr sc.az sc.name sc.type with
    | none => (st, [Event.createSubnet vpc sc.cidr sc.az sc.name sc.type none], false)
    | some subnet_id =>
      let createEv := Event.createSubnet vpc sc.cidr sc.az sc.name sc.type (some subnet_id)
      let rt_id := dictGet st.route_tables sc.type
      if truthyS rt_id then
        match p.associate_route_table subnet_id (rt_id.getD "") with
        | none =>
          (st, [createEv, Event.associateRouteTable subnet_id (rt_id.getD "") none], false)
        | some _ =>
          let st1 :=
            { st with subnets := dictSet st.subnets sc.name ⟨subnet_id, sc.cidr, sc.az, sc.type⟩ }
          match createSubnetsGo c p rest st1 with
          | (stf, evs, ok) =>
            (stf, createEv :: Event.associateRouteTable subnet_id (rt_id.getD "") (some ()) :: evs, ok)
      else
        let st1 :=
          { st with subnets := dictSet st.subnets sc.name ⟨subnet_id, sc.cidr, sc.az, sc.type⟩ }
        match createSubnetsGo c p rest st1 with
        | (stf, evs, ok) => (stf, createEv :: evs, ok)

def _create_subnets (c : Config) (p : Provider) (st : DeployState) :
    DeployState × List Event × Bool :=
  createSubnetsGo c p c.subnets st

def _create_nat_gateway (c : Config) (p : Provider) (st : DeployState) :
    DeployState × List Event × Bool :=
  if !c.natEnabled then (st, [], true)
  else
    let public_subnet :=
      (st.subnets.find? (fun kv => kv.2.type == "public")).map (fun kv => kv.2.id)
    if !truthyS public_subnet then (st, [Event.warnNoPublicSubnet], true)
    else
      let natName := c.vpc_name ++ "-nat"
      match p.create_nat_gateway (public_subnet.getD "") natName with
      | none => (st, [Event.createNatGateway (public_subnet.getD "") natName none], false)
      | some (nat_id, eip) =>
        let params :=
          VPCManager.add_route_params ((dictGet st.route_tables "private").getD "")
            "0.0.0.0/0" none (some nat_id)
        match p.create_route params with
        | none =>
          (st, [Event.createNatGateway (public_subnet.getD "") natName (some (nat_id, eip)),
                Event.addRoute params none], false)
        | some _ =>
          ({ st with gateways := { st.gateways with nat_gateway := some ⟨nat_id, eip⟩ } },
           [Event.createNatGateway (public_subnet.getD "") natName (some (nat_id, eip)),
            Event.addRoute params (some ())], true)

def addRulesGo (p : Provider) (sg_id : String) :
    List IngressSpec → List Event × Bool
  | [] => ([], true)
  | r :: rest =>
    let res := p.authorize_security_group_ingress sg_id r.protocol r.from_port r.to_port r.cidr
    let ev := Event.addIngressRule sg_id r.protocol r.from_port r.to_port r.cidr res
    if (SecurityManager.add_ingress_rule res).1 then ([ev], false)
    else
      match addRulesGo p sg_id rest with
      | (evs, ok) => (ev :: evs, ok)

def applySGsGo (c : Config) (p : Provider) :
    List (String × List IngressSpec) → DeployState → DeployState × List Event × Bool
  | [], st => (st, [], true)
  | (sg_name, rules) :: rest, st =>
    let vpc := st.vpc_id.getD ""
    let desc := "Security group for " ++ sg_name
    match p.create_security_group vpc sg_name desc with
    | none => (st, [Event.createSecurityGroup vpc sg_name desc none], false)
    | some sg_id =>
      match addRulesGo p sg_id rules with
      | (revs, false) =>
        (st, Event.createSecurityGroup vpc sg_name desc (some sg_id) :: revs, false)
      | (revs, true) =>
        let st1 := { st with security_groups := dictSet st.security_groups sg_name sg_id }
        match applySGsGo c p rest st1 with
        | (stf, evs, ok) =>
          (stf, Event.createSecurityGroup vpc sg_name desc (some sg_id) :: (revs ++ evs), ok)

def _apply_security_groups (c : Config) (p : Provider) (st : DeployState) :
    DeployState × List Event × Bool :=
  if c.security_groups.isEmpty then (st, [], true)
  else applySGsGo c p c.security_groups st

def _export_state (c : Config) (st : DeployState) :
    DeployState × List Event × Bool :=
  (st, [Event.exportState (c.vpc_name ++ "-state.json") st], true)

/-- `_dry_run_validation`, inner loop: validate each subnet CIDR, stopping
at the first invalid one.  Returns the verdict and the ordered list of
CIDRs actually submitted to `validate_cidr`. -/
def dryRunSubnets : List SubnetSpec → Bool × List String
  | [] => (true, [])
  | sp :: rest =>
    if validate_cidr sp.cidr then
      match dryRunSubnets rest with
      | (ok, tr) => (ok, sp.cidr :: tr)
    else (false, [sp.cidr])

/-- `AWSNetworkBuilder._dry_run_validation`: validate the network CIDR,
then every subnet CIDR in order, failing fast.  Second component: the
CIDRs passed to `validate_cidr`, in call order. -/
def _dry_run_validation (c : Config) : Bool × List String :=
  if validate_cidr c.cidr then
    match dryRunSubnets c.subnets with
    | (ok, tr) => (ok, c.cidr :: tr)
  else (false, [c.cidr])

/-- `AWSNetworkBuilder.deploy`: dry-run validates only; otherwise the
fixed pipeline, aborting at the first step whose provider call raised and
returning `False` from the except-handler with the partial state kept in
memory.  Returns (result, in-memory state, trace of provider calls). -/
def deploy (c : Config) (p : Provider) (dry_run : Bool) :
    Bool × DeployState × List Event :=
  if dry_run then ((_dry_run_validation c).1, initState, [])
  else
    match _create_vpc c p initState with
    | (s1, t1, false) => (false, s1, t1)
    | (s1, t1, true) =>
      match _create_internet_gateway c p s1 with
      | (s2, t2, false) => (false, s2, t1 ++ t2)
      | (s2, t2, true) =>
        match _create_route_tables c p s2 with
        | (s3, t3, false) => (false, s3, t1 ++ t2 ++ t3)
        | (s3, t3, true) =>
          match _create_subnets c p s3 with
          | (s4, t4, false) => (false, s4, t1 ++ t2 ++ t3 ++ t4)
          | (s4, t4, true) =>
            match _create_nat_gateway c p s4 with
            | (s5, t5, false) => (false, s5, t1 ++ t2 ++ t3 ++ t4 ++ t5)
            | (s5, t5, true) =>
              match _apply_security_groups c p s5 with
              | (s6, t6, false) => (false, s6, t1 ++ t2 ++ t3 ++ t4 ++ t5 ++ t6)
              | (s6, t6, true) =>
                match _export_state c s6 with
                | (s7, t7, _) => (true, s7, t1 ++ t2 ++ t3 ++ t4 ++ t5 ++ t6 ++ t7)

def deployOk (c : Config) (p : Provider) : Bool := (deploy c p false).1

def deployState (c : Config) (p : Provider) : DeployState := (deploy c p false).2.1

def deployTrace (c : Config) (p : Provider) : List Event := (deploy c p false).2.2

/-! Teardown (`AWSNetworkBuilder.teardown` and the `_delete_*` helpers).
Deletion calls are recorded as `TCall` paired with whether the provider
call succeeded; a failing call raises and halts the remaining steps. -/

inductive TCall
  | delNat (id : String)
  | delIgw (igw vpc : String)
  | delSubnet (id : String)
  | delRouteTable (id : String)
  | delSecurityGroup (id : String)
  | delVpc (id : String)
deriving DecidableEq

def _delete_nat_gateways (p : Provider) (st : DeployState) :
    List (TCall × Bool) × Bool :=
  match st.gateways.nat_gateway with
  | some nat =>
    match p.delete_nat_gateway nat.id with
    | some _ => ([(TCall.delNat nat.id, true)], true)
    | none => ([(TCall.delNat nat.id, false)], false)
  | none => ([], true)

def _delete_internet_gateways (p : Provider) (st : DeployState) :
    List (TCall × Bool) × Bool :=
  match st.gateways.internet_gateway with
  | some igw =>
    match p.delete_internet_gateway igw (st.vpc_id.getD "") with
    | some _ => ([(TCall.delIgw igw (st.vpc_id.getD ""), true)], true)
    | none => ([(TCall.delIgw igw (st.vpc_id.getD ""), false)], false)
  | none => ([], true)

/-- One `for` loop over a resource category: delete each identifier until
one deletion raises. -/
def delListGo (del : String → Option Unit) (mk : String → TCall) :
    List String → List (TCall × Bool) × Bool
  | [] => ([], true)
  | id :: rest =>
    match del id with
    | none => ([(mk id, false)], false)
    | some _ =>
      match delListGo del mk rest with
      | (evs, ok) => ((mk id, true) :: evs, ok)

def _delete_subnets (p : Provider) (st : DeployState) :
    List (TCall × Bool) × Bool :=
  delListGo p.delete_subnet TCall.delSubnet (st.subnets.map (fun kv => kv.2.id))

def _delete_route_tables (p : Provider) (st : DeployState) :
    List (TCall × Bool) × Bool :=
  delListGo p.delete_route_table TCall.delRouteTable (st.route_tables.map Prod.snd)

def _delete_security_groups (p : Provider) (st : DeployState) :
    List (TCall × Bool) × Bool :=
  delListGo p.delete_security_group TCall.delSecurityGroup (st.security_groups.map Prod.snd)

def _delete_vpc (p : Provider) (st : DeployState) :
    List (TCall × Bool) × Bool :=
  if truthyS st.vpc_id then
    match p.delete_vpc (st.vpc_id.getD "") with
    | some _ => ([(TCall.delVpc (st.vpc_id.getD ""), true)], true)
    | none => ([(TCall.delVpc (st.vpc_id.getD ""), false)], false)
  else ([], true)

/-- `AWSNetworkBuilder.teardown`: the six deletion steps in fixed order,
halting at the first raised exception. -/
def teardown (st : DeployState) (p : Provider) : Bool × List (TCall × Bool) :=
  match _delete_nat_gateways p st with
  | (t1, false) => (false, t1)
  | (t1, true) =>
    match _delete_internet_gateways p st with
    | (t2, false) => (false, t1 ++ t2)
    | (t2, true) =>
      match _delete_subnets p st with
      | (t3, false) => (false, t1 ++ t2 ++ t3)
      | (t3, true) =>
        match _delete_route_tables p st with
        | (t4, false) => (false, t1 ++ t2 ++ t3 ++ t4)
        | (t4, true) =>
          match _delete_security_groups p st with
          | (t5, false) => (false, t1 ++ t2 ++ t3 ++ t4 ++ t5)
          | (t5, true) =>
            match _delete_vpc p st with
            | (t6, false) => (false, t1 ++ t2 ++ t3 ++ t4 ++ t5 ++ t6)
            | (t6, true) => (true, t1 ++ t2 ++ t3 ++ t4 ++ t5 ++ t6)

/-- Deletion calls of the NAT-gateway teardown step. -/
def planNat (st : DeployState) : List TCall :=
  match st.gateways.nat_gateway with
  | some nat => [TCall.delNat nat.id]
  | none => []

/-- Deletion calls of the internet-gateway teardown step. -/
def planIgw (st : DeployState) : List TCall :=
  match st.gateways.internet_gateway with
  | some igw => [TCall.delIgw igw (st.vpc_id.getD "")]
  | none => []

/-- Deletion calls of the final VPC teardown step. -/
def planVpc (st : DeployState) : List TCall :=
  if truthyS st.vpc_id then [TCall.delVpc (st.vpc_id.getD "")] else []

/-- The complete deletion call sequence teardown would issue for `st` if
every provider call succeeded, in the fixed category order NAT gateway,
internet gateway, subnets, route tables, security groups, network. -/
def teardownPlan (st : DeployState) : List TCall :=
  planNat st ++ planIgw st ++
  (st.subnets.map (fun kv => TCall.delSubnet kv.2.id)) ++
  (st.route_tables.map (fun kv => TCall.delRouteTable kv.2)) ++
  (st.security_groups.map (fun kv => TCall.delSecurityGroup kv.2)) ++
  planVpc st

/-! Statement helpers: classification of events by pipeline step. -/

/-- Resource-category of an event. -/
inductive EKind
  | vpcK | igwK | rtK | routeK | subnetK | assocK | natK | warnK | sgK | ruleK | exportK
deriving DecidableEq

def Event.kind : Event → EKind
  | .createVpc .. => .vpcK
  | .createInternetGateway .. => .igwK
  | .createRouteTable .. => .rtK
  | .addRoute .. => .routeK
  | .createSubnet .. => .subnetK
  | .associateRouteTable .. => .assocK
  | .createNatGateway .. => .natK
  | .warnNoPublicSubnet => .warnK
  | .createSecurityGroup .. => .sgK
  | .addIngressRule .. => .ruleK
  | .exportState .. => .exportK

/-- Pipeline position of an event in the fixed deployment order of
`deploy` (§4.1 of the spec): 1 network, 2 internet gateway, 3 route
tables and the default route to the internet gateway, 4 subnets and
their associations, 5 NAT gateway, 6 default route to the NAT gateway,
7 security groups and rules, 8 state export.  A route targeting a
gateway (`GatewayId` set) belongs to step 3; any other route is the NAT
default route of step 6. -/
def Event.phase : Event → Nat
  | .createVpc .. => 1
  | .createInternetGateway .. => 2
  | .createRouteTable .. => 3
  | .addRoute params _ => if params.GatewayId.isSome then 3 else 6
  | .createSubnet .. => 4
  | .associateRouteTable .. => 4
  | .createNatGateway .. => 5
  | .warnNoPublicSubnet => 5
  | .createSecurityGroup .. => 7
  | .addIngressRule .. => 7
  | .exportState .. => 8

/-- Number of events of a given category in a trace. -/
def kcount (k : EKind) (tr : List Event) : Nat :=
  tr.countP (fun e => e.kind == k)

/-- A route-creation call whose target is the internet gateway. -/
def isIgwRoute : Event → Bool
  | .addRoute params _ => params.GatewayId.isSome
  | _ => false

def optIds : Option String → List String
  | some v => [v]
  | none => []

def natIds : Option NatInfo → List String
  | some n => [n.id]
  | none => []

/-- Every resource identifier recorded in a deployment state. -/
def stateIds (s : DeployState) : List String :=
  optIds s.vpc_id ++ s.subnets.map (fun kv => kv.2.id) ++
    s.route_tables.map Prod.snd ++ optIds s.gateways.internet_gateway ++
    natIds s.gateways.nat_gateway ++ s.security_groups.map Prod.snd

/-- The identifier returned by an event, when the event is a create call
that returned successfully. -/
def createdId : Event → Option String
  | .createVpc _ _ _ _ _ (some v) => some v
  | .createInternetGateway _ _ (some v) => some v
  | .createRouteTable _ _ (some v) => some v
  | .createSubnet _ _ _ _ _ (some v) => some v
  | .createNatGateway _ _ (some pr) => some pr.1
  | .createSecurityGroup _ _ _ (some v) => some v
  | _ => none

/-- All identifiers returned by successful create calls of a trace. -/
def createdIds (tr : List Event) : List String :=
  tr.filterMap createdId

/-- The CIDRs `_dry_run_validation` submits to `validate_cidr` from a
list: all of them up to and including the first invalid one. -/
def checkedUpTo : List String → List String
  | [] => []
  | x :: rest => if validate_cidr x then x :: checkedUpTo rest else [x]

/-- Providers whose internet-gateway identifiers are non-empty strings
(as every real AWS identifier is). -/
def ProviderWF (p : Provider) : Prop :=
  ∀ v n g, p.create_internet_gateway v n = some g → g ≠ ""

/-! Concrete instances used to evaluate the development on closed inputs:
an always-succeeding provider, a full-featured configuration, and inputs
exercising the failure and duplicate-name paths. -/

/-- A provider whose calls all succeed, returning non-empty identifiers
derived from the call arguments. -/
def pOK : Provider where
  create_vpc := fun _ _ _ _ _ => some "vpc-1"
  create_internet_gateway := fun _ _ => some "igw-1"
  create_route_table := fun _ name => some ("rt-" ++ name)
  create_route := fun _ => some ()
  create_subnet := fun _ _ _ name _ => some ("subnet-" ++ name)
  associate_route_table := fun _ _ => some ()
  create_nat_gateway := fun _ _ => some ("nat-1", "1.2.3.4")
  create_security_group := fun _ name _ => some ("sg-" ++ name)
  authorize_security_group_ingress := fun _ _ _ _ _ => ClientRes.ok
  delete_nat_gateway := fun _ => some ()
  delete_internet_gateway := fun _ _ => some ()
  delete_subnet := fun _ => some ()
  delete_route_table := fun _ => some ()
  delete_security_group := fun _ => some ()
  delete_vpc := fun _ => some ()

/-- The end-to-end scenario configuration of §8 of the spec. -/
def cW : Config where
  vpc_name := "test"
  cidr := "10.0.0.0/16"
  region := "us-east-1"
  subnets := [⟨"pub-a", "10.0.1.0/24", "us-east-1a", "public"⟩,
              ⟨"priv-a", "10.0.2.0/24", "us-east-1b", "private"⟩]
  nat_gateway := some ⟨true⟩
  security_groups := [("web", [⟨"tcp", 443, 443, "0.0.0.0/0"⟩])]

/-- A minimal configuration with no subnets and no security groups. -/
def cC6 : Config where
  vpc_name := "test"
  cidr := "10.0.0.0/16"
  region := "us-east-1"
  subnets := []

/-- A provider whose `create_route` call always raises, while every
create call succeeds. -/
def pC6 : Provider where
  create_vpc := fun _ _ _ _ _ => some "vpc-1"
  create_internet_gateway := fun _ _ => some "igw-1"
  create_route_table := fun _ _ => some "rt-1"
  create_route := fun _ => none
  create_subnet := fun _ _ _ name _ => some ("subnet-" ++ name)
  associate_route_table := fun _ _ => some ()
  create_nat_gateway := fun _ _ => some ("nat-1", "1.2.3.4")
  create_security_group := fun _ name _ => some ("sg-" ++ name)
  authorize_security_group_ingress := fun _ _ _ _ _ => ClientRes.ok
  delete_nat_gateway := fun _ => some ()
  delete_internet_gateway := fun _ _ => some ()
  delete_subnet := fun _ => some ()
  delete_route_table := fun _ => some ()
  delete_security_group := fun _ => some ()
  delete_vpc := fun _ => some ()

/-- A configuration whose two subnet specs share the same name. -/
def cC8 : Config where
  vpc_name := "test"
  cidr := "10.0.0.0/16"
  region := "us-east-1"
  subnets := [⟨"dup", "10.0.1.0/24", "us-east-1a", "public"⟩,
              ⟨"dup", "10.0.2.0/24", "us-east-1b", "private"⟩]

/-- A state exercising every teardown category on concrete identifiers. -/
def stTD : DeployState where
  vpc_id := some "vpc-1"
  subnets := [("pub-a", ⟨"subnet-pub-a", "10.0.1.0/24", "us-east-1a", "public"⟩)]
  security_groups := [("web", "sg-web")]
  route_tables := [("public", "rt-public"), ("private", "rt-private")]
  gateways := { internet_gateway := some "igw-1", nat_gateway := some ⟨"nat-1", "1.2.3.4"⟩ }

/-! Basic lemmas about the dictionary model and list order. -/

theorem dictSet_mem {α : Type} (l : List (String × α)) (k : String) (v : α) :
    ∀ x ∈ dictSet l k v, x ∈ l ∨ x = (k, v) := by
  induction l with
  | nil => intro x hx; simp [dictSet] at hx; exact Or.inr hx
  | cons hd tl ih =>
    intro x hx
    by_cases hk : hd.1 = k
    · simp [dictSet, hk] at hx
      rcases hx with h | h
      · exact Or.inr h
      · exact Or.inl (List.mem_cons_of_mem _ h)
    · simp [dictSet, hk] at hx
      rcases hx with h | h
      · exact Or.inl (by simp [h])
      · rcases ih x h with h' | h'
        · exact Or.inl (List.mem_cons_of_mem _ h')
        · exact Or.inr h'

theorem dictSet_fresh {α : Type} (l : List (String × α)) (k : String) (v : α)
    (h : k ∉ l.map Prod.fst) : dictSet l k v = l ++ [(k, v)] := by
  induction l with
  | nil => simp [dictSet]
  | cons hd tl ih =>
    simp only [List.map_cons, List.mem_cons] at h
    push_neg at h
    simp [dictSet, fun hk : hd.1 = k => h.1 hk.symm, ih h.2]
    intro hk
    exact absurd hk.symm h.1

theorem pairwise_le_of_const {l : List Event} {k : Nat}
    (h : ∀ e ∈ l, Event.phase e = k) :
    (l.map Event.phase).Pairwise (· ≤ ·) := by
  induction l with
  | nil => simp
  | cons hd tl ih =>
    simp only [List.map_cons, List.pairwise_cons]
    constructor
    · intro b hb
      simp only [List.mem_map] at hb
      rcases hb with ⟨e, he, rfl⟩
      rw [h hd (by simp), h e (List.mem_cons_of_mem _ he)]
    · exact ih (fun e he => h e (List.mem_cons_of_mem _ he))

theorem pairwise_le_append {l1 l2 : List Nat} {k : Nat}
    (h1 : l1.Pairwise (· ≤ ·)) (h2 : l2.Pairwise (· ≤ ·))
    (b1 : ∀ x ∈ l1, x ≤ k) (b2 : ∀ x ∈ l2, k ≤ x) :
    (l1 ++ l2).Pairwise (· ≤ ·) :=
  List.pairwise_append.mpr
    ⟨h1, h2, fun a ha b hb => le_trans (b1 a ha) (b2 b hb)⟩

theorem dictSet_map_mem {α β : Type} (f : String × α → β)
    (l : List (String × α)) (k : String) (v : α) (a : β) :
    a ∈ (dictSet l k v).map f → a ∈ l.map f ∨ a = f (k, v) := by
  intro h
  simp only [List.mem_map] at h ⊢
  rcases h with ⟨x, hx, rfl⟩
  rcases dictSet_mem l k v x hx with h | h
  · exact Or.inl ⟨x, h, rfl⟩
  · exact Or.inr (by rw [h])

theorem add_route_params_gateway {rt dc : String} {gid nid : Option String}
    (h : truthyS gid = true) :
    VPCManager.add_route_params rt dc gid nid = {
      RouteTableId := rt, DestinationCidrBlock := dc,
      GatewayId := gid, NatGatewayId := none } := by
  simp [VPCManager.add_route_params, h]

theorem add_route_params_nat_none {rt dc : String} {nid : Option String} :
    (VPCManager.add_route_params rt dc none nid).GatewayId = none := by
  cases nid with
  | none => rfl
  | some s =>
    by_cases h : s.isEmpty <;>
      simp [VPCManager.add_route_params, truthyS, h]

/-! Per-step facts about the deployment pipeline.  Each lemma records the
categories and phases of the events a step issues, that identifiers enter
the state only from successful create calls of the step, which state
fields the step leaves untouched, and — on success — the exact shape of
the step's output. -/

theorem create_vpc_facts (c : Config) (p : Provider) (st st' : DeployState)
    (Δ : List Event) (ok : Bool) (h : _create_vpc c p st = (st', Δ, ok)) :
    (∀ e ∈ Δ, e.kind = EKind.vpcK) ∧
    stateIds st' ⊆ stateIds st ++ createdIds Δ ∧
    st'.subnets = st.subnets ∧ st'.route_tables = st.route_tables ∧
    st'.gateways = st.gateways ∧ st'.security_groups = st.security_groups ∧
    (ok = true → ∃ v, st' = { st with vpc_id := some v } ∧
      Δ = [Event.createVpc c.cidr c.vpc_name (c.enable_dns_hostnames.getD true)
            (c.enable_dns_support.getD true) c.tags (some v)]) := by
  cases hc : p.create_vpc c.cidr c.vpc_name (c.enable_dns_hostnames.getD true)
      (c.enable_dns_support.getD true) c.tags with
  | some v =>
    simp only [_create_vpc, hc, Prod.mk.injEq] at h
    obtain ⟨h1, h2, h3⟩ := h
    subst h1; subst h2; subst h3
    refine ⟨by simp [Event.kind], ?_, rfl, rfl, rfl, rfl, fun _ => ⟨v, rfl, rfl⟩⟩
    intro a ha
    simp only [stateIds, createdIds, createdId, optIds, List.mem_append,
      List.filterMap, List.mem_singleton] at ha ⊢
    tauto
  | none =>
    simp only [_create_vpc, hc, Prod.mk.injEq] at h
    obtain ⟨h1, h2, h3⟩ := h
    subst h1; subst h2; subst h3
    refine ⟨by simp [Event.kind], ?_, rfl, rfl, rfl, rfl, by simp⟩
    intro a ha
    simp [List.mem_append]
    exact Or.inl ha

theorem create_igw_facts (c : Config) (p : Provider) (st st' : DeployState)
    (Δ : List Event) (ok : Bool)
    (h : _create_internet_gateway c p st = (st', Δ, ok)) :
    (∀ e ∈ Δ, e.kind = EKind.igwK) ∧
    stateIds st' ⊆ stateIds st ++ createdIds Δ ∧
    st'.vpc_id = st.vpc_id ∧ st'.subnets = st.subnets ∧
    st'.route_tables = st.route_tables ∧
    st'.gateways.nat_gateway = st.gateways.nat_gateway ∧
    st'.security_groups = st.security_groups ∧
    (ok = true → ∃ g, p.create_internet_gateway (st.vpc_id.getD "") (c.vpc_name ++ "-igw") = some g ∧
      st' = { st with gateways := { st.gateways with internet_gateway := some g } } ∧
      Δ = [Event.createInternetGateway (st.vpc_id.getD "") (c.vpc_name ++ "-igw") (some g)]) := by
  cases hc : p.create_internet_gateway (st.vpc_id.getD "") (c.vpc_name ++ "-igw") with
  | some g =>
    simp only [_create_internet_gateway, hc, Prod.mk.injEq] at h
    obtain ⟨h1, h2, h3⟩ := h
    subst h1; subst h2; subst h3
    refine ⟨by simp [Event.kind], ?_, rfl, rfl, rfl, rfl, rfl, fun _ => ⟨g, rfl, rfl, rfl⟩⟩
    intro a ha
    simp only [stateIds, createdIds, createdId, optIds, List.mem_append,
      List.filterMap, List.mem_singleton] at ha ⊢
    tauto
  | none =>
    simp only [_create_internet_gateway, hc, Prod.mk.injEq] at h
    obtain ⟨h1, h2, h3⟩ := h
    subst h1; subst h2; subst h3
    refine ⟨by simp [Event.kind], ?_, rfl, rfl, rfl, rfl, rfl, by simp⟩
    intro a ha
    simp [List.mem_append]
    exact Or.inl ha

theorem export_state_facts (c : Config) (st st' : DeployState)
    (Δ : List Event) (ok : Bool) (h : _export_state c st = (st', Δ, ok)) :
    st' = st ∧ Δ = [Event.exportState (c.vpc_name ++ "-state.json") st] ∧ ok = true := by
  simp only [_export_state, Prod.mk.injEq] at h
  obtain ⟨h1, h2, h3⟩ := h
  exact ⟨h1.symm, h2.symm, h3.symm⟩

theorem truthyS_isSome {o : Option String} (h : truthyS o = true) :
    o.isSome = true := by
  cases o <;> simp [truthyS] at h ⊢

theorem create_route_tables_facts (c : Config) (p : Provider)
    (st st' : DeployState) (Δ : List Event) (ok : Bool)
    (h : _create_route_tables c p st = (st', Δ, ok)) :
    (∀ e ∈ Δ, e.kind = EKind.rtK ∨ e.kind = EKind.routeK) ∧
    (truthyS st.gateways.internet_gateway = true →
      ∀ e ∈ Δ, e.phase = 3) ∧
    stateIds st' ⊆ stateIds st ++ createdIds Δ ∧
    st'.vpc_id = st.vpc_id ∧ st'.subnets = st.subnets ∧
    st'.gateways = st.gateways ∧ st'.security_groups = st.security_groups ∧
    (ok = true → ∃ pub priv,
      st' = { st with route_tables := dictSet (dictSet st.route_tables "public" pub) "private" priv } ∧
      Δ = [Event.createRouteTable (st.vpc_id.getD "") (c.vpc_name ++ "-public-rt") (some pub),
           Event.addRoute (VPCManager.add_route_params pub "0.0.0.0/0"
             st.gateways.internet_gateway none) (some ()),
           Event.createRouteTable (st.vpc_id.getD "") (c.vpc_name ++ "-private-rt") (some priv)]) := by
  cases h1 : p.create_route_table (st.vpc_id.getD "") (c.vpc_name ++ "-public-rt") with
  | none =>
    simp only [_create_route_tables, h1, Prod.mk.injEq] at h
    obtain ⟨ha, hb, hc⟩ := h
    subst ha; subst hb; subst hc
    refine ⟨by simp [Event.kind], by simp [Event.phase], ?_, rfl, rfl, rfl, rfl, by simp⟩
    intro a ha
    simp [List.mem_append]
    exact Or.inl ha
  | some pub =>
    cases h2 : p.create_route (VPCManager.add_route_params pub "0.0.0.0/0"
        st.gateways.internet_gateway none) with
    | none =>
      simp only [_create_route_tables, h1, h2, Prod.mk.injEq] at h
      obtain ⟨ha, hb, hc⟩ := h
      subst ha; subst hb; subst hc
      refine ⟨by simp [Event.kind], ?_, ?_, rfl, rfl, rfl, rfl, by simp⟩
      · intro htr e he
        simp only [List.mem_cons, List.not_mem_nil, or_false] at he
        rcases he with rfl | rfl
        · rfl
        · simp [Event.phase, add_route_params_gateway htr, truthyS_isSome htr]
      · intro a ha
        simp [List.mem_append]
        exact Or.inl ha
    | some u =>
      cases h3 : p.create_route_table (st.vpc_id.getD "") (c.vpc_name ++ "-private-rt") with
      | none =>
        simp only [_create_route_tables, h1, h2, h3, Prod.mk.injEq] at h
        obtain ⟨ha, hb, hc⟩ := h
        subst ha; subst hb; subst hc
        refine ⟨by simp [Event.kind], ?_, ?_, rfl, rfl, rfl, rfl, by simp⟩
        · intro htr e he
          simp only [List.mem_cons, List.not_mem_nil, or_false] at he
          rcases he with rfl | rfl | rfl
          · rfl
          · simp [Event.phase, add_route_params_gateway htr, truthyS_isSome htr]
          · rfl
        · intro a ha
          simp only [stateIds, List.mem_append] at ha
          simp only [List.mem_append, stateIds]
          rcases ha with ((((ha | ha) | ha) | ha) | ha) | ha
          · tauto
          · tauto
          · rcases dictSet_map_mem Prod.snd st.route_tables "public" pub a ha with h' | h'
            · tauto
            · right
              simp [createdIds, createdId, h']
          · tauto
          · tauto
          · tauto
      | some priv =>
        simp only [_create_route_tables, h1, h2, h3, Prod.mk.injEq] at h
        obtain ⟨ha, hb, hc⟩ := h
        subst ha; subst hb; subst hc
        refine ⟨by simp [Event.kind], ?_, ?_, rfl, rfl, rfl, rfl,
          fun _ => ⟨pub, priv, rfl, rfl⟩⟩
        · intro htr e he
          simp only [List.mem_cons, List.not_mem_nil, or_false] at he
          rcases he with rfl | rfl | rfl
          · rfl
          · simp [Event.phase, add_route_params_gateway htr, truthyS_isSome htr]
          · rfl
        · intro a ha
          simp only [stateIds, List.mem_append] at ha
          simp only [List.mem_append, stateIds]
          rcases ha with ((((ha | ha) | ha) | ha) | ha) | ha
          · tauto
          · tauto
          · rcases dictSet_map_mem Prod.snd _ "private" priv a ha with h' | h'
            · rcases dictSet_map_mem Prod.snd st.route_tables "public" pub a h' with h'' | h''
              · tauto
              · right
                simp [createdIds, createdId, h'']
            · right
              simp [createdIds, createdId, h']
          · tauto
          · tauto
          · tauto

theorem createSubnetsGo_facts (c : Config) (p : Provider) :
    ∀ (specs : List SubnetSpec) (st st' : DeployState) (Δ : List Event) (ok : Bool),
      createSubnetsGo c p specs st = (st', Δ, ok) →
      (∀ e ∈ Δ, e.kind = EKind.subnetK ∨ e.kind = EKind.assocK) ∧
      stateIds st' ⊆ stateIds st ++ createdIds Δ ∧
      st'.vpc_id = st.vpc_id ∧ st'.route_tables = st.route_tables ∧
      st'.gateways = st.gateways ∧ st'.security_groups = st.security_groups ∧
      (∀ kv ∈ st'.subnets, kv ∈ st.subnets ∨
        ∃ sc ∈ specs, ∃ id : String, kv = (sc.name, SubnetInfo.mk id sc.cidr sc.az sc.type)) ∧
      (∀ e ∈ Δ, ∀ v cd az n ty r, e = Event.createSubnet v cd az n ty r →
        ∃ sc ∈ specs, cd = sc.cidr ∧ az = sc.az ∧ n = sc.name ∧ ty = sc.type) := by
  intro specs
  induction specs with
  | nil =>
    intro st st' Δ ok h
    simp only [createSubnetsGo, Prod.mk.injEq] at h
    obtain ⟨h1, h2, h3⟩ := h
    subst h1; subst h2; subst h3
    refine ⟨by simp, ?_, rfl, rfl, rfl, rfl, fun kv hkv => Or.inl hkv, by simp⟩
    intro a ha
    simp [List.mem_append]
    exact Or.inl ha
  | cons sc rest ih =>
    intro st st' Δ ok h
    cases hc : p.create_subnet (st.vpc_id.getD "") sc.cidr sc.az sc.name sc.type with
    | none =>
      simp only [createSubnetsGo, hc, Prod.mk.injEq] at h
      obtain ⟨h1, h2, h3⟩ := h
      subst h1; subst h2; subst h3
      refine ⟨by simp [Event.kind], ?_, rfl, rfl, rfl, rfl,
        fun kv hkv => Or.inl hkv, ?_⟩
      · intro a ha
        simp [List.mem_append]
        exact Or.inl ha
      · intro e he v cd az n ty r hev
        simp only [List.mem_singleton] at he
        subst he
        cases hev
        exact ⟨sc, by simp, rfl, rfl, rfl, rfl⟩
    | some subnet_id =>
      by_cases ht : truthyS (dictGet st.route_tables sc.type) = true
      · cases hassoc : p.associate_route_table subnet_id
            ((dictGet st.route_tables sc.type).getD "") with
        | none =>
          simp only [createSubnetsGo, hc, ht, if_true, hassoc, Prod.mk.injEq] at h
          obtain ⟨h1, h2, h3⟩ := h
          subst h1; subst h2; subst h3
          refine ⟨by simp [Event.kind], ?_, rfl, rfl, rfl, rfl,
            fun kv hkv => Or.inl hkv, ?_⟩
          · intro a ha
            simp [List.mem_append]
            exact Or.inl ha
          · intro e he v cd az n ty r hev
            simp only [List.mem_cons, List.not_mem_nil, or_false] at he
            rcases he with rfl | rfl
            · cases hev
              exact ⟨sc, by simp, rfl, rfl, rfl, rfl⟩
            · cases hev
        | some uu =>
          rcases hrec : createSubnetsGo c p rest { st with subnets := dictSet st.subnets sc.name (SubnetInfo.mk subnet_id sc.cidr sc.az sc.type) } with ⟨stf, evs, okr⟩
          simp only [createSubnetsGo, hc, ht, if_true, hassoc, hrec, Prod.mk.injEq] at h
          obtain ⟨h1, h2, h3⟩ := h
          subst h1; subst h2; subst h3
          obtain ⟨ihk, ihsub, ihv, ihrt, ihg, ihsg, ihorig, ihev⟩ :=
            ih _ stf evs okr hrec
          refine ⟨?_, ?_, ihv, ihrt, ihg, ihsg, ?_, ?_⟩
          · intro e he
            simp only [List.mem_cons] at he
            rcases he with rfl | rfl | he
            · exact Or.inl rfl
            · exact Or.inr rfl
            · exact ihk e he
          · intro a ha
            have h2 := ihsub ha
            simp only [List.mem_append] at h2
            rcases h2 with h2 | h2
            · simp only [stateIds, List.mem_append] at h2
              rcases h2 with ((((h2 | h2) | h2) | h2) | h2) | h2
              · simp only [stateIds, List.mem_append]; tauto
              · rcases dictSet_map_mem (fun kv => kv.2.id) st.subnets sc.name
                    (SubnetInfo.mk subnet_id sc.cidr sc.az sc.type) a h2 with h3 | h3
                · simp only [stateIds, List.mem_append]; tauto
                · simp only [List.mem_append]
                  right
                  simp [createdIds, createdId, h3]
              · simp only [stateIds, List.mem_append]; tauto
              · simp only [stateIds, List.mem_append]; tauto
              · simp only [stateIds, List.mem_append]; tauto
              · simp only [stateIds, List.mem_append]; tauto
            · simp only [List.mem_append]
              right
              simp only [createdIds, createdId, List.filterMap_cons]
              exact List.mem_cons_of_mem _ h2
          · intro kv hkv
            rcases ihorig kv hkv with h2 | h2
            · rcases dictSet_mem st.subnets sc.name
                  (SubnetInfo.mk subnet_id sc.cidr sc.az sc.type) kv h2 with h3 | h3
              · exact Or.inl h3
              · exact Or.inr ⟨sc, by simp, subnet_id, h3⟩
            · rcases h2 with ⟨sc', hsc', id, hid⟩
              exact Or.inr ⟨sc', List.mem_cons_of_mem _ hsc', id, hid⟩
          · intro e he v cd az n ty r hev
            simp only [List.mem_cons] at he
            rcases he with rfl | rfl | he
            · cases hev
              exact ⟨sc, by simp, rfl, rfl, rfl, rfl⟩
            · cases hev
            · rcases ihev e he v cd az n ty r hev with ⟨sc', hsc', h4⟩
              exact ⟨sc', List.mem_cons_of_mem _ hsc', h4⟩
      · rcases hrec : createSubnetsGo c p rest { st with subnets := dictSet st.subnets sc.name (SubnetInfo.mk subnet_id sc.cidr sc.az sc.type) } with ⟨stf, evs, okr⟩
        rw [Bool.not_eq_true] at ht
        simp only [createSubnetsGo, hc, ht, Bool.false_eq_true, if_false, hrec, Prod.mk.injEq] at h
        obtain ⟨h1, h2, h3⟩ := h
        subst h1; subst h2; subst h3
        obtain ⟨ihk, ihsub, ihv, ihrt, ihg, ihsg, ihorig, ihev⟩ :=
          ih _ stf evs okr hrec
        refine ⟨?_, ?_, ihv, ihrt, ihg, ihsg, ?_, ?_⟩
        · intro e he
          simp only [List.mem_cons] at he
          rcases he with rfl | he
          · exact Or.inl rfl
          · exact ihk e he
        · intro a ha
          have h2 := ihsub ha
          simp only [List.mem_append] at h2
          rcases h2 with h2 | h2
          · simp only [stateIds, List.mem_append] at h2
            rcases h2 with ((((h2 | h2) | h2) | h2) | h2) | h2
            · simp only [stateIds, List.mem_append]; tauto
            · rcases dictSet_map_mem (fun kv => kv.2.id) st.subnets sc.name
                  (SubnetInfo.mk subnet_id sc.cidr sc.az sc.type) a h2 with h3 | h3
              · simp only [stateIds, List.mem_append]; tauto
              · simp only [List.mem_append]
                right
                simp [createdIds, createdId, h3]
            · simp only [stateIds, List.mem_append]; tauto
            · simp only [stateIds, List.mem_append]; tauto
            · simp only [stateIds, List.mem_append]; tauto
            · simp only [stateIds, List.mem_append]; tauto
          · simp only [List.mem_append]
            right
            simp only [createdIds, createdId, List.filterMap_cons]
            exact List.mem_cons_of_mem _ h2
        · intro kv hkv
          rcases ihorig kv hkv with h2 | h2
          · rcases dictSet_mem st.subnets sc.name
                (SubnetInfo.mk subnet_id sc.cidr sc.az sc.type) kv h2 with h3 | h3
            · exact Or.inl h3
            · exact Or.inr ⟨sc, by simp, subnet_id, h3⟩
          · rcases h2 with ⟨sc', hsc', id, hid⟩
            exact Or.inr ⟨sc', List.mem_cons_of_mem _ hsc', id, hid⟩
        · intro e he v cd az n ty r hev
          simp only [List.mem_cons] at he
          rcases he with rfl | he
          · cases hev
            exact ⟨sc, by simp, rfl, rfl, rfl, rfl⟩
          · rcases ihev e he v cd az n ty r hev with ⟨sc', hsc', h4⟩
            exact ⟨sc', List.mem_cons_of_mem _ hsc', h4⟩

theorem create_nat_facts (c : Config) (p : Provider) (st st' : DeployState)
    (Δ : List Event) (ok : Bool) (h : _create_nat_gateway c p st = (st', Δ, ok)) :
    (∀ e ∈ Δ, 5 ≤ e.phase ∧ e.phase ≤ 6) ∧
    (Δ.map Event.phase).Pairwise (· ≤ ·) ∧
    (∀ e ∈ Δ, e.kind = EKind.natK ∨ e.kind = EKind.warnK ∨ e.kind = EKind.routeK) ∧
    (∀ e ∈ Δ, isIgwRoute e = false) ∧
    stateIds st' ⊆ stateIds st ++ createdIds Δ ∧
    st'.vpc_id = st.vpc_id ∧ st'.subnets = st.subnets ∧
    st'.route_tables = st.route_tables ∧ st'.security_groups = st.security_groups ∧
    st'.gateways.internet_gateway = st.gateways.internet_gateway ∧
    (ok = true →
      (st' = st ∧ (Δ = [] ∨ Δ = [Event.warnNoPublicSubnet])) ∨
      (∃ natId eip,
        st' = { st with gateways := { st.gateways with nat_gateway := some (NatInfo.mk natId eip) } } ∧
        createdIds Δ = [natId])) := by
  cases hne : c.natEnabled with
  | false =>
    simp only [_create_nat_gateway, hne, Bool.not_false, if_true, Prod.mk.injEq] at h
    obtain ⟨h1, h2, h3⟩ := h
    subst h1; subst h2; subst h3
    refine ⟨by simp, by simp, by simp, by simp, ?_, rfl, rfl, rfl, rfl, rfl,
      fun _ => Or.inl ⟨rfl, Or.inl rfl⟩⟩
    intro a ha
    simp [List.mem_append]
    exact Or.inl ha
  | true =>
    by_cases hpub : truthyS ((st.subnets.find? (fun kv => kv.2.type == "public")).map (fun kv => kv.2.id)) = true
    · cases hcall : p.create_nat_gateway
          (((st.subnets.find? (fun kv => kv.2.type == "public")).map (fun kv => kv.2.id)).getD "")
          (c.vpc_name ++ "-nat") with
      | none =>
        simp only [_create_nat_gateway, hne, Bool.not_true, Bool.false_eq_true, if_false,
          hpub, if_true, hcall, Prod.mk.injEq] at h
        obtain ⟨h1, h2, h3⟩ := h
        subst h1; subst h2; subst h3
        refine ⟨by simp [Event.phase], by simp, by simp [Event.kind],
          by simp [isIgwRoute], ?_, rfl, rfl, rfl, rfl, rfl, by simp⟩
        intro a ha
        simp [List.mem_append, createdIds, createdId]
        exact ha
      | some pr =>
        rcases pr with ⟨nat_id, eip⟩
        cases hroute : p.create_route (VPCManager.add_route_params
            ((dictGet st.route_tables "private").getD "") "0.0.0.0/0" none (some nat_id)) with
        | none =>
          simp only [_create_nat_gateway, hne, Bool.not_true, Bool.false_eq_true, if_false,
            hpub, if_true, hcall, hroute, Prod.mk.injEq] at h
          obtain ⟨h1, h2, h3⟩ := h
          subst h1; subst h2; subst h3
          refine ⟨?_, ?_, by simp [Event.kind], ?_, ?_, rfl, rfl, rfl, rfl, rfl, by simp⟩
          · intro e he
            simp only [List.mem_cons, List.not_mem_nil, or_false] at he
            rcases he with rfl | rfl
            · simp [Event.phase]
            · simp [Event.phase, add_route_params_nat_none]
          · simp only [List.map_cons, List.map_nil, Event.phase, add_route_params_nat_none]
            simp
          · intro e he
            simp only [List.mem_cons, List.not_mem_nil, or_false] at he
            rcases he with rfl | rfl
            · simp [isIgwRoute]
            · simp [isIgwRoute, add_route_params_nat_none]
          · intro a ha
            simp [List.mem_append, createdIds, createdId]
            exact Or.inl ha
        | some uu =>
          simp only [_create_nat_gateway, hne, Bool.not_true, Bool.false_eq_true, if_false,
            hpub, if_true, hcall, hroute, Prod.mk.injEq] at h
          obtain ⟨h1, h2, h3⟩ := h
          subst h1; subst h2; subst h3
          refine ⟨?_, ?_, by simp [Event.kind], ?_, ?_, rfl, rfl, rfl, rfl, rfl,
            fun _ => Or.inr ⟨nat_id, eip, rfl, rfl⟩⟩
          · intro e he
            simp only [List.mem_cons, List.not_mem_nil, or_false] at he
            rcases he with rfl | rfl
            · simp [Event.phase]
            · simp [Event.phase, add_route_params_nat_none]
          · simp only [List.map_cons, List.map_nil, Event.phase, add_route_params_nat_none]
            simp
          · intro e he
            simp only [List.mem_cons, List.not_mem_nil, or_false] at he
            rcases he with rfl | rfl
            · simp [isIgwRoute]
            · simp [isIgwRoute, add_route_params_nat_none]
          · intro a ha
            simp only [stateIds, List.mem_append] at ha
            simp only [List.mem_append, stateIds]
            rcases ha with ((((ha | ha) | ha) | ha) | ha) | ha
            · tauto
            · tauto
            · tauto
            · tauto
            · simp only [natIds, List.mem_singleton] at ha
              right
              simp [createdIds, createdId, ha]
            · tauto
    · rw [Bool.not_eq_true] at hpub
      simp only [_create_nat_gateway, hne, Bool.not_true, Bool.false_eq_true, if_false,
        hpub, Bool.not_false, if_true, Prod.mk.injEq] at h
      obtain ⟨h1, h2, h3⟩ := h
      subst h1; subst h2; subst h3
      refine ⟨by simp [Event.phase], by simp, by simp [Event.kind],
        by simp [isIgwRoute], ?_, rfl, rfl, rfl, rfl, rfl,
        fun _ => Or.inl ⟨rfl, Or.inr rfl⟩⟩
      intro a ha
      simp [List.mem_append, createdIds, createdId]
      exact ha

theorem addRulesGo_facts (p : Provider) (sg_id : String) :
    ∀ (rules : List IngressSpec) (evs : List Event) (ok : Bool),
      addRulesGo p sg_id rules = (evs, ok) →
      (∀ e ∈ evs, e.kind = EKind.ruleK) ∧ createdIds evs = [] := by
  intro rules
  induction rules with
  | nil =>
    intro evs ok h
    simp only [addRulesGo, Prod.mk.injEq] at h
    obtain ⟨h1, h2⟩ := h
    subst h1
    exact ⟨by simp, rfl⟩
  | cons r rest ih =>
    intro evs ok h
    by_cases hr : (SecurityManager.add_ingress_rule
        (p.authorize_security_group_ingress sg_id r.protocol r.from_port r.to_port r.cidr)).1 = true
    · simp only [addRulesGo, hr, if_true, Prod.mk.injEq] at h
      obtain ⟨h1, h2⟩ := h
      subst h1
      exact ⟨by simp [Event.kind], rfl⟩
    · rcases haux : addRulesGo p sg_id rest with ⟨evs', ok'⟩
      rw [Bool.not_eq_true] at hr
      simp only [addRulesGo, hr, Bool.false_eq_true, if_false, haux, Prod.mk.injEq] at h
      obtain ⟨h1, h2⟩ := h
      subst h1
      obtain ⟨ihk, ihc⟩ := ih evs' ok' haux
      refine ⟨?_, ?_⟩
      · intro e he
        simp only [List.mem_cons] at he
        rcases he with rfl | he
        · simp [Event.kind]
        · exact ihk e he
      · have hnone : createdId (Event.addIngressRule sg_id r.protocol r.from_port
            r.to_port r.cidr (p.authorize_security_group_ingress sg_id r.protocol
            r.from_port r.to_port r.cidr)) = none := rfl
        simp only [createdIds, List.filterMap_cons, hnone]
        exact ihc

theorem applySGsGo_facts (c : Config) (p : Provider) :
    ∀ (sgs : List (String × List IngressSpec)) (st st' : DeployState)
      (Δ : List Event) (ok : Bool),
      applySGsGo c p sgs st = (st', Δ, ok) →
      (∀ e ∈ Δ, e.kind = EKind.sgK ∨ e.kind = EKind.ruleK) ∧
      stateIds st' ⊆ stateIds st ++ createdIds Δ ∧
      st'.vpc_id = st.vpc_id ∧ st'.subnets = st.subnets ∧
      st'.route_tables = st.route_tables ∧ st'.gateways = st.gateways := by
  intro sgs
  induction sgs with
  | nil =>
    intro st st' Δ ok h
    simp only [applySGsGo, Prod.mk.injEq] at h
    obtain ⟨h1, h2, h3⟩ := h
    subst h1; subst h2; subst h3
    refine ⟨by simp, ?_, rfl, rfl, rfl, rfl⟩
    intro a ha
    simp [List.mem_append]
    exact Or.inl ha
  | cons sg rest ih =>
    intro st st' Δ ok h
    rcases sg with ⟨sg_name, rules⟩
    cases hc : p.create_security_group (st.vpc_id.getD "") sg_name
        ("Security group for " ++ sg_name) with
    | none =>
      simp only [applySGsGo, hc, Prod.mk.injEq] at h
      obtain ⟨h1, h2, h3⟩ := h
      subst h1; subst h2; subst h3
      refine ⟨by simp [Event.kind], ?_, rfl, rfl, rfl, rfl⟩
      intro a ha
      simp [List.mem_append, createdIds, createdId]
      exact ha
    | some sg_id =>
      rcases hrules : addRulesGo p sg_id rules with ⟨revs, rok⟩
      obtain ⟨hrk, hrc⟩ := addRulesGo_facts p sg_id rules revs rok hrules
      cases rok with
      | false =>
        simp only [applySGsGo, hc, hrules, Prod.mk.injEq] at h
        obtain ⟨h1, h2, h3⟩ := h
        subst h1; subst h2; subst h3
        refine ⟨?_, ?_, rfl, rfl, rfl, rfl⟩
        · intro e he
          simp only [List.mem_cons] at he
          rcases he with rfl | he
          · exact Or.inl rfl
          · exact Or.inr (hrk e he)
        · intro a ha
          simp only [List.mem_append]
          exact Or.inl ha
      | true =>
        rcases hrec : applySGsGo c p rest { st with security_groups := dictSet st.security_groups sg_name sg_id } with ⟨stf, evs, okr⟩
        simp only [applySGsGo, hc, hrules, hrec, Prod.mk.injEq] at h
        obtain ⟨h1, h2, h3⟩ := h
        subst h1; subst h2; subst h3
        obtain ⟨ihk, ihsub, ihv, ihsn, ihrt, ihg⟩ := ih _ stf evs okr hrec
        refine ⟨?_, ?_, ihv, ihsn, ihrt, ihg⟩
        · intro e he
          simp only [List.mem_cons, List.mem_append] at he
          rcases he with rfl | he | he
          · exact Or.inl rfl
          · exact Or.inr (hrk e he)
          · exact ihk e he
        · intro a ha
          have h2 := ihsub ha
          have hcr : createdIds (Event.createSecurityGroup (st.vpc_id.getD "") sg_name
              ("Security group for " ++ sg_name) (some sg_id) :: (revs ++ evs)) =
              sg_id :: createdIds evs := by
            have hhead : createdId (Event.createSecurityGroup (st.vpc_id.getD "") sg_name
                ("Security group for " ++ sg_name) (some sg_id)) = some sg_id := rfl
            simp only [createdIds, List.filterMap_cons, hhead, List.filterMap_append]
            have hrevs : List.filterMap createdId revs = [] := hrc
            rw [hrevs, List.nil_append]
          rw [List.mem_append, hcr]
          simp only [List.mem_append] at h2
          rcases h2 with h2 | h2
          · simp only [stateIds, List.mem_append] at h2
            rcases h2 with ((((h2 | h2) | h2) | h2) | h2) | h2
            · simp only [stateIds, List.mem_append]; tauto
            · simp only [stateIds, List.mem_append]; tauto
            · simp only [stateIds, List.mem_append]; tauto
            · simp only [stateIds, List.mem_append]; tauto
            · simp only [stateIds, List.mem_append]; tauto
            · rcases dictSet_map_mem Prod.snd st.security_groups sg_name sg_id a h2 with h3 | h3
              · simp only [stateIds, List.mem_append]; tauto
              · right
                simp [h3]
          · right
            exact List.mem_cons_of_mem _ h2

theorem createSubnetsGo_count (c : Config) (p : Provider) :
    ∀ (specs : List SubnetSpec) (st st' : DeployState) (Δ : List Event),
      createSubnetsGo c p specs st = (st', Δ, true) →
      Δ.countP (fun e => e.kind == EKind.subnetK) = specs.length := by
  intro specs
  induction specs with
  | nil =>
    intro st st' Δ h
    simp only [createSubnetsGo, Prod.mk.injEq] at h
    obtain ⟨h1, h2, h3⟩ := h
    subst h2
    simp
  | cons sc rest ih =>
    intro st st' Δ h
    cases hc : p.create_subnet (st.vpc_id.getD "") sc.cidr sc.az sc.name sc.type with
    | none =>
      simp only [createSubnetsGo, hc, Prod.mk.injEq] at h
      exact absurd h.2.2.symm (by simp)
    | some subnet_id =>
      by_cases ht : truthyS (dictGet st.route_tables sc.type) = true
      · cases hassoc : p.associate_route_table subnet_id
            ((dictGet st.route_tables sc.type).getD "") with
        | none =>
          simp only [createSubnetsGo, hc, ht, if_true, hassoc, Prod.mk.injEq] at h
          exact absurd h.2.2.symm (by simp)
        | some uu =>
          rcases hrec : createSubnetsGo c p rest { st with subnets := dictSet st.subnets sc.name (SubnetInfo.mk subnet_id sc.cidr sc.az sc.type) } with ⟨stf, evs, okr⟩
          simp only [createSubnetsGo, hc, ht, if_true, hassoc, hrec, Prod.mk.injEq] at h
          obtain ⟨h1, h2, h3⟩ := h
          subst h2
          rw [h3] at hrec
          have hcnt := ih _ stf evs hrec
          have e1 : ((Event.createSubnet (st.vpc_id.getD "") sc.cidr sc.az sc.name sc.type
              (some subnet_id)).kind == EKind.subnetK) = true := rfl
          have e2 : ((Event.associateRouteTable subnet_id
              ((dictGet st.route_tables sc.type).getD "") (some ())).kind ==
              EKind.subnetK) = false := rfl
          simp only [List.countP_cons, e1, e2, if_true, if_false, hcnt]
          simp
      · rcases hrec : createSubnetsGo c p rest { st with subnets := dictSet st.subnets sc.name (SubnetInfo.mk subnet_id sc.cidr sc.az sc.type) } with ⟨stf, evs, okr⟩
        rw [Bool.not_eq_true] at ht
        simp only [createSubnetsGo, hc, ht, Bool.false_eq_true, if_false, hrec,
          Prod.mk.injEq] at h
        obtain ⟨h1, h2, h3⟩ := h
        subst h2
        rw [h3] at hrec
        have hcnt := ih _ stf evs hrec
        have e1 : ((Event.createSubnet (st.vpc_id.getD "") sc.cidr sc.az sc.name sc.type
            (some subnet_id)).kind == EKind.subnetK) = true := rfl
        simp only [List.countP_cons, e1, if_true, hcnt]
        simp

theorem applySGsGo_count (c : Config) (p : Provider) :
    ∀ (sgs : List (String × List IngressSpec)) (st st' : DeployState) (Δ : List Event),
      applySGsGo c p sgs st = (st', Δ, true) →
      Δ.countP (fun e => e.kind == EKind.sgK) = sgs.length := by
  intro sgs
  induction sgs with
  | nil =>
    intro st st' Δ h
    simp only [applySGsGo, Prod.mk.injEq] at h
    obtain ⟨h1, h2, h3⟩ := h
    subst h2
    simp
  | cons sg rest ih =>
    intro st st' Δ h
    rcases sg with ⟨sg_name, rules⟩
    cases hc : p.create_security_group (st.vpc_id.getD "") sg_name
        ("Security group for " ++ sg_name) with
    | none =>
      simp only [applySGsGo, hc, Prod.mk.injEq] at h
      exact absurd h.2.2.symm (by simp)
    | some sg_id =>
      rcases hrules : addRulesGo p sg_id rules with ⟨revs, rok⟩
      obtain ⟨hrk, hrc⟩ := addRulesGo_facts p sg_id rules revs rok hrules
      cases rok with
      | false =>
        simp only [applySGsGo, hc, hrules, Prod.mk.injEq] at h
        exact absurd h.2.2.symm (by simp)
      | true =>
        rcases hrec : applySGsGo c p rest { st with security_groups := dictSet st.security_groups sg_name sg_id } with ⟨stf, evs, okr⟩
        simp only [applySGsGo, hc, hrules, hrec, Prod.mk.injEq] at h
        obtain ⟨h1, h2, h3⟩ := h
        subst h2
        rw [h3] at hrec
        have hcnt := ih _ stf evs hrec
        have hrevs : revs.countP (fun e => e.kind == EKind.sgK) = 0 :=
          List.countP_eq_zero.mpr (fun e he => by simp [hrk e he])
        have e1 : ((Event.createSecurityGroup (st.vpc_id.getD "") sg_name
            ("Security group for " ++ sg_name) (some sg_id)).kind == EKind.sgK) = true := rfl
        simp only [List.countP_cons, List.countP_append, e1, if_true, hrevs, hcnt]
        simp

theorem createSubnetsGo_fresh (c : Config) (p : Provider) :
    ∀ (specs : List SubnetSpec) (st st' : DeployState) (Δ : List Event),
      createSubnetsGo c p specs st = (st', Δ, true) →
      (st.subnets.map Prod.fst ++ specs.map SubnetSpec.name).Nodup →
      ∃ ids : List String, ids.length = specs.length ∧
        st'.subnets = st.subnets ++
          (specs.zip ids).map (fun q => (q.1.name, SubnetInfo.mk q.2 q.1.cidr q.1.az q.1.type)) ∧
        createdIds Δ = ids ∧
        (∀ q ∈ specs.zip ids,
          ∃ v, Event.createSubnet v q.1.cidr q.1.az q.1.name q.1.type (some q.2) ∈ Δ) := by
  intro specs
  induction specs with
  | nil =>
    intro st st' Δ h hfresh
    simp only [createSubnetsGo, Prod.mk.injEq] at h
    obtain ⟨h1, h2, h3⟩ := h
    subst h1; subst h2
    exact ⟨[], rfl, by simp, rfl, by simp⟩
  | cons sc rest ih =>
    intro st st' Δ h hfresh
    have hdisj := (List.nodup_append.mp hfresh).2.2
    have hnotin : sc.name ∉ st.subnets.map Prod.fst := by
      intro hmem
      exact hdisj hmem (by simp)
    cases hc : p.create_subnet (st.vpc_id.getD "") sc.cidr sc.az sc.name sc.type with
    | none =>
      simp only [createSubnetsGo, hc, Prod.mk.injEq] at h
      exact absurd h.2.2.symm (by simp)
    | some subnet_id =>
      have hsub1 : dictSet st.subnets sc.name (SubnetInfo.mk subnet_id sc.cidr sc.az sc.type) =
          st.subnets ++ [(sc.name, SubnetInfo.mk subnet_id sc.cidr sc.az sc.type)] :=
        dictSet_fresh _ _ _ hnotin
      have hfresh' : (((dictSet st.subnets sc.name
          (SubnetInfo.mk subnet_id sc.cidr sc.az sc.type)).map Prod.fst) ++
          rest.map SubnetSpec.name).Nodup := by
        rw [hsub1, List.map_append, List.append_assoc]
        simpa using hfresh
      by_cases ht : truthyS (dictGet st.route_tables sc.type) = true
      · cases hassoc : p.associate_route_table subnet_id
            ((dictGet st.route_tables sc.type).getD "") with
        | none =>
          simp only [createSubnetsGo, hc, ht, if_true, hassoc, Prod.mk.injEq] at h
          exact absurd h.2.2.symm (by simp)
        | some uu =>
          rcases hrec : createSubnetsGo c p rest { st with subnets := dictSet st.subnets sc.name (SubnetInfo.mk subnet_id sc.cidr sc.az sc.type) } with ⟨stf, evs, okr⟩
          simp only [createSubnetsGo, hc, ht, if_true, hassoc, hrec, Prod.mk.injEq] at h
          obtain ⟨h1, h2, h3⟩ := h
          subst h1; subst h2
          rw [h3] at hrec
          obtain ⟨ids', hlen, hsubn, hcr, hev⟩ := ih _ stf evs hrec hfresh'
          have hs : ({ st with subnets := dictSet st.subnets sc.name (SubnetInfo.mk subnet_id sc.cidr sc.az sc.type) } : DeployState).subnets = st.subnets ++ [(sc.name, SubnetInfo.mk subnet_id sc.cidr sc.az sc.type)] := hsub1
          rw [hs, List.append_assoc] at hsubn
          refine ⟨subnet_id :: ids', by simp [hlen], ?_, ?_, ?_⟩
          · rw [hsubn]
            rfl
          · have hhead : createdId (Event.createSubnet (st.vpc_id.getD "") sc.cidr sc.az
                sc.name sc.type (some subnet_id)) = some subnet_id := rfl
            have hanone : createdId (Event.associateRouteTable subnet_id
                ((dictGet st.route_tables sc.type).getD "") (some ())) = none := rfl
            simp only [createdIds, List.filterMap_cons, hhead, hanone]
            rw [show List.filterMap createdId evs = ids' from hcr]
          · intro q hq
            simp only [List.zip_cons_cons, List.mem_cons] at hq
            rcases hq with rfl | hq
            · exact ⟨st.vpc_id.getD "", List.mem_cons_self _ _⟩
            · obtain ⟨v, hv⟩ := hev q hq
              exact ⟨v, List.mem_cons_of_mem _ (List.mem_cons_of_mem _ hv)⟩
      · rcases hrec : createSubnetsGo c p rest { st with subnets := dictSet st.subnets sc.name (SubnetInfo.mk subnet_id sc.cidr sc.az sc.type) } with ⟨stf, evs, okr⟩
        rw [Bool.not_eq_true] at ht
        simp only [createSubnetsGo, hc, ht, Bool.false_eq_true, if_false, hrec,
          Prod.mk.injEq] at h
        obtain ⟨h1, h2, h3⟩ := h
        subst h1; subst h2
        rw [h3] at hrec
        obtain ⟨ids', hlen, hsubn, hcr, hev⟩ := ih _ stf evs hrec hfresh'
        have hs : ({ st with subnets := dictSet st.subnets sc.name (SubnetInfo.mk subnet_id sc.cidr sc.az sc.type) } : DeployState).subnets = st.subnets ++ [(sc.name, SubnetInfo.mk subnet_id sc.cidr sc.az sc.type)] := hsub1
        rw [hs, List.append_assoc] at hsubn
        refine ⟨subnet_id :: ids', by simp [hlen], ?_, ?_, ?_⟩
        · rw [hsubn]
          rfl
        · have hhead : createdId (Event.createSubnet (st.vpc_id.getD "") sc.cidr sc.az
              sc.name sc.type (some subnet_id)) = some subnet_id := rfl
          simp only [createdIds, List.filterMap_cons, hhead]
          rw [show List.filterMap createdId evs = ids' from hcr]
        · intro q hq
          simp only [List.zip_cons_cons, List.mem_cons] at hq
          rcases hq with rfl | hq
          · exact ⟨st.vpc_id.getD "", List.mem_cons_self _ _⟩
          · obtain ⟨v, hv⟩ := hev q hq
            exact ⟨v, List.mem_cons_of_mem _ hv⟩

theorem applySGsGo_fresh (c : Config) (p : Provider) :
    ∀ (sgs : List (String × List IngressSpec)) (st st' : DeployState) (Δ : List Event),
      applySGsGo c p sgs st = (st', Δ, true) →
      (st.security_groups.map Prod.fst ++ sgs.map Prod.fst).Nodup →
      ∃ ids : List String, ids.length = sgs.length ∧
        st'.security_groups = st.security_groups ++
          (sgs.zip ids).map (fun q => (q.1.1, q.2)) ∧
        createdIds Δ = ids := by
  intro sgs
  induction sgs with
  | nil =>
    intro st st' Δ h hfresh
    simp only [applySGsGo, Prod.mk.injEq] at h
    obtain ⟨h1, h2, h3⟩ := h
    subst h1; subst h2
    exact ⟨[], rfl, by simp, rfl⟩
  | cons sg rest ih =>
    intro st st' Δ h hfresh
    rcases sg with ⟨sg_name, rules⟩
    have hdisj := (List.nodup_append.mp hfresh).2.2
    have hnotin : sg_name ∉ st.security_groups.map Prod.fst := by
      intro hmem
      exact hdisj hmem (by simp)
    cases hc : p.create_security_group (st.vpc_id.getD "") sg_name
        ("Security group for " ++ sg_name) with
    | none =>
      simp only [applySGsGo, hc, Prod.mk.injEq] at h
      exact absurd h.2.2.symm (by simp)
    | some sg_id =>
      rcases hrules : addRulesGo p sg_id rules with ⟨revs, rok⟩
      obtain ⟨hrk, hrc⟩ := addRulesGo_facts p sg_id rules revs rok hrules
      cases rok with
      | false =>
        simp only [applySGsGo, hc, hrules, Prod.mk.injEq] at h
        exact absurd h.2.2.symm (by simp)
      | true =>
        have hsg1 : dictSet st.security_groups sg_name sg_id =
            st.security_groups ++ [(sg_name, sg_id)] := dictSet_fresh _ _ _ hnotin
        have hfresh' : (((dictSet st.security_groups sg_name sg_id).map Prod.fst) ++
            rest.map Prod.fst).Nodup := by
          rw [hsg1, List.map_append, List.append_assoc]
          simpa using hfresh
        rcases hrec : applySGsGo c p rest { st with security_groups := dictSet st.security_groups sg_name sg_id } with ⟨stf, evs, okr⟩
        simp only [applySGsGo, hc, hrules, hrec, Prod.mk.injEq] at h
        obtain ⟨h1, h2, h3⟩ := h
        subst h1; subst h2
        rw [h3] at hrec
        obtain ⟨ids', hlen, hsgn, hcr⟩ := ih _ stf evs hrec hfresh'
        have hs : ({ st with security_groups := dictSet st.security_groups sg_name sg_id } : DeployState).security_groups =
            st.security_groups ++ [(sg_name, sg_id)] := hsg1
        rw [hs, List.append_assoc] at hsgn
        refine ⟨sg_id :: ids', by simp [hlen], ?_, ?_⟩
        · rw [hsgn]
          rfl
        · have hhead : createdId (Event.createSecurityGroup (st.vpc_id.getD "") sg_name
              ("Security group for " ++ sg_name) (some sg_id)) = some sg_id := rfl
          simp only [createdIds, List.filterMap_cons, hhead, List.filterMap_append]
          have hrevs : List.filterMap createdId revs = [] := hrc
          rw [hrevs, List.nil_append]
          rw [show List.filterMap createdId evs = ids' from hcr]

/-! Helpers relating event categories, phases, and created identifiers. -/

theorem phase_of_vpcK {e : Event} (h : e.kind = EKind.vpcK) : e.phase = 1 := by
  cases e <;> first | rfl | simp [Event.kind] at h

theorem phase_of_igwK {e : Event} (h : e.kind = EKind.igwK) : e.phase = 2 := by
  cases e <;> first | rfl | simp [Event.kind] at h

theorem phase_of_subnetK {e : Event}
    (h : e.kind = EKind.subnetK ∨ e.kind = EKind.assocK) : e.phase = 4 := by
  cases e <;> first | rfl | (rcases h with h | h <;> simp [Event.kind] at h)

theorem phase_of_sgK {e : Event}
    (h : e.kind = EKind.sgK ∨ e.kind = EKind.ruleK) : e.phase = 7 := by
  cases e <;> first | rfl | (rcases h with h | h <;> simp [Event.kind] at h)

theorem kind_ne_of_eq {e : Event} {k k' : EKind} (h : e.kind = k) (hne : k ≠ k') :
    e.kind ≠ k' := by rw [h]; exact hne

theorem no_export_of_kinds {t : List Event}
    (hk : ∀ e ∈ t, e.kind ≠ EKind.exportK) :
    ∀ fn ds, Event.exportState fn ds ∉ t :=
  fun _ _ hmem => hk _ hmem rfl

theorem no_createSubnet_of_kinds {t : List Event}
    (hk : ∀ e ∈ t, e.kind ≠ EKind.subnetK) :
    ∀ e ∈ t, ∀ v cd az n ty r, e ≠ Event.createSubnet v cd az n ty r :=
  fun e he _ _ _ _ _ _ hev => hk e he (by rw [hev]; rfl)

theorem createdIds_append (t1 t2 : List Event) :
    createdIds (t1 ++ t2) = createdIds t1 ++ createdIds t2 :=
  List.filterMap_append t1 t2 createdId

theorem subset_step {sA sB : DeployState} {T Δ : List Event}
    (h1 : stateIds sB ⊆ createdIds T)
    (h2 : stateIds sA ⊆ stateIds sB ++ createdIds Δ) :
    stateIds sA ⊆ createdIds (T ++ Δ) := by
  intro a ha
  rw [createdIds_append, List.mem_append]
  rcases List.mem_append.mp (h2 ha) with h | h
  · exact Or.inl (h1 h)
  · exact Or.inr h

theorem stateIds_init : stateIds initState = [] := rfl

theorem sorted_extend {T Δ : List Event} {k : Nat}
    (hs : (T.map Event.phase).Pairwise (· ≤ ·))
    (hb : ∀ e ∈ T, e.phase ≤ k)
    (hΔs : (Δ.map Event.phase).Pairwise (· ≤ ·))
    (hΔlo : ∀ e ∈ Δ, k ≤ e.phase) :
    ((T ++ Δ).map Event.phase).Pairwise (· ≤ ·) := by
  rw [List.map_append]
  apply pairwise_le_append hs hΔs
  · intro x hx
    rcases List.mem_map.mp hx with ⟨e, he, rfl⟩
    exact hb e he
  · intro x hx
    rcases List.mem_map.mp hx with ⟨e, he, rfl⟩
    exact hΔlo e he

theorem truthyS_of_ne {g : String} (h : g ≠ "") : truthyS (some g) = true := by
  have hge : g.isEmpty = false := by
    rw [Bool.eq_false_iff]
    intro hh
    exact h ((String.isEmpty_iff g).mp hh)
  simp [truthyS, hge]

theorem kcount_append (k : EKind) (t1 t2 : List Event) :
    kcount k (t1 ++ t2) = kcount k t1 + kcount k t2 :=
  List.countP_append _ _ _

theorem kcount_zero_of_kinds {k : EKind} {t : List Event}
    (hk : ∀ e ∈ t, e.kind ≠ k) : kcount k t = 0 :=
  List.countP_eq_zero.mpr (fun e he => by simp [hk e he])

/-- Facts holding for every (non-dry-run) deployment run: the state file
is written exactly on full success, identifiers in state always come from
successful creates, events occur in non-decreasing pipeline phase, and
subnet tiers come verbatim from the configuration. -/
theorem deploy_run_facts (c : Config) (p : Provider) (r : Bool)
    (s : DeployState) (tr : List Event) (h : deploy c p false = (r, s, tr)) :
    (r = false → ∀ fn ds, Event.exportState fn ds ∉ tr) ∧
    (r = true → Event.exportState (c.vpc_name ++ "-state.json") s ∈ tr ∧
      tr.getLast? = some (Event.exportState (c.vpc_name ++ "-state.json") s)) ∧
    stateIds s ⊆ createdIds tr ∧
    (ProviderWF p → (tr.map Event.phase).Pairwise (· ≤ ·)) ∧
    ((∀ sc ∈ c.subnets, sc.type = "public" ∨ sc.type = "private") →
      (∀ kv ∈ s.subnets, kv.2.type = "public" ∨ kv.2.type = "private") ∧
      (∀ e ∈ tr, ∀ v cd az n ty rr, e = Event.createSubnet v cd az n ty rr →
        ty = "public" ∨ ty = "private")) := by
  rcases h1 : _create_vpc c p initState with ⟨s1, t1, ok1⟩
  obtain ⟨k1, sub1, sn1, rt1, g1, sg1, d1⟩ := create_vpc_facts c p initState s1 t1 ok1 h1
  have hsub1 : stateIds s1 ⊆ createdIds t1 := by
    intro a ha
    have := sub1 ha
    rwa [stateIds_init, List.nil_append] at this
  have hne1 : ∀ e ∈ t1, e.kind ≠ EKind.exportK := fun e he => by rw [k1 e he]; simp
  have hns1 : ∀ e ∈ t1, e.kind ≠ EKind.subnetK := fun e he => by rw [k1 e he]; simp
  have hb1 : ∀ e ∈ t1, e.phase = 1 := fun e he => phase_of_vpcK (k1 e he)
  have hso1 : (t1.map Event.phase).Pairwise (· ≤ ·) := pairwise_le_of_const hb1
  cases ok1 with
  | false =>
    have hde : deploy c p false = (false, s1, t1) := by simp [deploy, h1]
    rw [hde] at h
    simp only [Prod.mk.injEq] at h
    obtain ⟨hr, hs, htr⟩ := h
    subst hr; subst hs; subst htr
    refine ⟨fun _ => no_export_of_kinds hne1, by simp, hsub1, fun _ => hso1, ?_⟩
    intro htier
    constructor
    · rw [sn1]
      intro kv hkv
      simp [initState] at hkv
    · intro e he v cd az n ty rr hev
      exact absurd hev (no_createSubnet_of_kinds hns1 e he v cd az n ty rr)
  | true =>
    obtain ⟨vpcId, hs1, ht1⟩ := d1 rfl
    rcases h2 : _create_internet_gateway c p s1 with ⟨s2, t2, ok2⟩
    obtain ⟨k2, sub2, v2, sn2, rt2, gn2, sg2, d2⟩ := create_igw_facts c p s1 s2 t2 ok2 h2
    have hsub2 : stateIds s2 ⊆ createdIds (t1 ++ t2) := subset_step hsub1 sub2
    have hne2 : ∀ e ∈ t2, e.kind ≠ EKind.exportK := fun e he => by rw [k2 e he]; simp
    have hns2 : ∀ e ∈ t2, e.kind ≠ EKind.subnetK := fun e he => by rw [k2 e he]; simp
    have hb2 : ∀ e ∈ t2, e.phase = 2 := fun e he => phase_of_igwK (k2 e he)
    have hso12 : ((t1 ++ t2).map Event.phase).Pairwise (· ≤ ·) :=
      sorted_extend hso1 (fun e he => le_of_eq (hb1 e he)) (pairwise_le_of_const hb2)
        (fun e he => by rw [hb2 e he]; omega)
    have hbb2 : ∀ e ∈ t1 ++ t2, e.phase ≤ 2 := by
      intro e he
      rcases List.mem_append.mp he with he | he
      · rw [hb1 e he]; omega
      · rw [hb2 e he]
    have hsn2 : s2.subnets = initState.subnets := by rw [sn2, hs1]
    cases ok2 with
    | false =>
      have hde : deploy c p false = (false, s2, t1 ++ t2) := by simp [deploy, h1, h2]
      rw [hde] at h
      simp only [Prod.mk.injEq] at h
      obtain ⟨hr, hs, htr⟩ := h
      subst hr; subst hs; subst htr
      refine ⟨fun _ => ?_, by simp, hsub2, fun _ => hso12, ?_⟩
      · intro fn ds hmem
        rcases List.mem_append.mp hmem with hm | hm
        · exact hne1 _ hm rfl
        · exact hne2 _ hm rfl
      · intro htier
        constructor
        · rw [hsn2]
          intro kv hkv
          simp [initState] at hkv
        · intro e he v cd az n ty rr hev
          rcases List.mem_append.mp he with hm | hm
          · exact absurd hev (no_createSubnet_of_kinds hns1 e hm v cd az n ty rr)
          · exact absurd hev (no_createSubnet_of_kinds hns2 e hm v cd az n ty rr)
    | true =>
      obtain ⟨igwId, higw, hs2, ht2⟩ := d2 rfl
      rcases h3 : _create_route_tables c p s2 with ⟨s3, t3, ok3⟩
      obtain ⟨k3, ph3, sub3, v3, sn3, g3, sg3, d3⟩ := create_route_tables_facts c p s2 s3 t3 ok3 h3
      have hsub3 : stateIds s3 ⊆ createdIds (t1 ++ t2 ++ t3) := subset_step hsub2 sub3
      have hne3 : ∀ e ∈ t3, e.kind ≠ EKind.exportK := by
        intro e he
        rcases k3 e he with hk | hk <;> rw [hk] <;> simp
      have hns3 : ∀ e ∈ t3, e.kind ≠ EKind.subnetK := by
        intro e he
        rcases k3 e he with hk | hk <;> rw [hk] <;> simp
      have higw2 : s2.gateways.internet_gateway = some igwId := by rw [hs2]
      have hsn3 : s3.subnets = initState.subnets := by rw [sn3, hsn2]
      cases ok3 with
      | false =>
        have hde : deploy c p false = (false, s3, t1 ++ t2 ++ t3) := by
          simp [deploy, h1, h2, h3]
        rw [hde] at h
        simp only [Prod.mk.injEq] at h
        obtain ⟨hr, hs, htr⟩ := h
        subst hr; subst hs; subst htr
        refine ⟨fun _ => ?_, by simp, hsub3, fun hwf => ?_, ?_⟩
        · intro fn ds hmem
          rcases List.mem_append.mp hmem with hm | hm
          · rcases List.mem_append.mp hm with hm' | hm'
            · exact hne1 _ hm' rfl
            · exact hne2 _ hm' rfl
          · exact hne3 _ hm rfl
        · have htru : truthyS s2.gateways.internet_gateway = true := by
            rw [higw2]
            exact truthyS_of_ne (hwf _ _ _ higw)
          have hb3 : ∀ e ∈ t3, e.phase = 3 := ph3 htru
          exact sorted_extend hso12 hbb2 (pairwise_le_of_const hb3)
            (fun e he => by rw [hb3 e he]; omega)
        · intro htier
          constructor
          · rw [hsn3]
            intro kv hkv
            simp [initState] at hkv
          · intro e he v cd az n ty rr hev
            rcases List.mem_append.mp he with hm | hm
            · rcases List.mem_append.mp hm with hm' | hm'
              · exact absurd hev (no_createSubnet_of_kinds hns1 e hm' v cd az n ty rr)
              · exact absurd hev (no_createSubnet_of_kinds hns2 e hm' v cd az n ty rr)
            · exact absurd hev (no_createSubnet_of_kinds hns3 e hm v cd az n ty rr)
      | true =>
        rcases h4 : _create_subnets c p s3 with ⟨s4, t4, ok4⟩
        obtain ⟨k4, sub4, v4, rt4, g4, sg4, orig4, ev4⟩ :=
          createSubnetsGo_facts c p c.subnets s3 s4 t4 ok4 h4
        have hsub4 : stateIds s4 ⊆ createdIds (t1 ++ t2 ++ t3 ++ t4) := subset_step hsub3 sub4
        have hne4 : ∀ e ∈ t4, e.kind ≠ EKind.exportK := by
          intro e he
          rcases k4 e he with hk | hk <;> rw [hk] <;> simp
        have hb4 : ∀ e ∈ t4, e.phase = 4 := fun e he => phase_of_subnetK (k4 e he)
        have horig4 : ∀ kv ∈ s4.subnets, ∃ sc ∈ c.subnets, ∃ id : String,
            kv = (sc.name, SubnetInfo.mk id sc.cidr sc.az sc.type) := by
          intro kv hkv
          rcases orig4 kv hkv with hk | hk
          · rw [hsn3] at hk
            simp [initState] at hk
          · exact hk
        have htev4 : (∀ sc ∈ c.subnets, sc.type = "public" ∨ sc.type = "private") →
            ∀ e ∈ t4, ∀ v cd az n ty rr, e = Event.createSubnet v cd az n ty rr →
              ty = "public" ∨ ty = "private" := by
          intro htier e he v cd az n ty rr hev
          rcases ev4 e he v cd az n ty rr hev with ⟨sc, hsc, hcd, haz, hn, hty⟩
          rw [hty]
          exact htier sc hsc
        cases ok4 with
        | false =>
          have hde : deploy c p false = (false, s4, t1 ++ t2 ++ t3 ++ t4) := by
            simp [deploy, h1, h2, h3, h4]
          rw [hde] at h
          simp only [Prod.mk.injEq] at h
          obtain ⟨hr, hs, htr⟩ := h
          subst hr; subst hs; subst htr
          refine ⟨fun _ => ?_, by simp, hsub4, fun hwf => ?_, ?_⟩
          · intro fn ds hmem
            rcases List.mem_append.mp hmem with hm | hm
            · rcases List.mem_append.mp hm with hm' | hm'
              · rcases List.mem_append.mp hm' with hm'' | hm''
                · exact hne1 _ hm'' rfl
                · exact hne2 _ hm'' rfl
              · exact hne3 _ hm' rfl
            · exact hne4 _ hm rfl
          · have htru : truthyS s2.gateways.internet_gateway = true := by
              rw [higw2]
              exact truthyS_of_ne (hwf _ _ _ higw)
            have hb3 : ∀ e ∈ t3, e.phase = 3 := ph3 htru
            have hso13 : (((t1 ++ t2) ++ t3).map Event.phase).Pairwise (· ≤ ·) :=
              sorted_extend hso12 hbb2 (pairwise_le_of_const hb3)
                (fun e he => by rw [hb3 e he]; omega)
            have hbb3 : ∀ e ∈ (t1 ++ t2) ++ t3, e.phase ≤ 3 := by
              intro e he
              rcases List.mem_append.mp he with he | he
              · exact le_trans (hbb2 e he) (by omega)
              · rw [hb3 e he]
            exact sorted_extend hso13 hbb3 (pairwise_le_of_const hb4)
              (fun e he => by rw [hb4 e he]; omega)
          · intro htier
            constructor
            · intro kv hkv
              rcases horig4 kv hkv with ⟨sc, hsc, id, rfl⟩
              exact htier sc hsc
            · intro e he v cd az n ty rr hev
              rcases List.mem_append.mp he with hm | hm
              · rcases List.mem_append.mp hm with hm' | hm'
                · rcases List.mem_append.mp hm' with hm'' | hm''
                  · exact absurd hev (no_createSubnet_of_kinds hns1 e hm'' v cd az n ty rr)
                  · exact absurd hev (no_createSubnet_of_kinds hns2 e hm'' v cd az n ty rr)
                · exact absurd hev (no_createSubnet_of_kinds hns3 e hm' v cd az n ty rr)
              · exact htev4 htier e hm v cd az n ty rr hev
        | true =>
          rcases h5 : _create_nat_gateway c p s4 with ⟨s5, t5, ok5⟩
          obtain ⟨pb5, ps5, k5, ir5, sub5, v5, sn5, rt5, sg5, gi5, d5⟩ :=
            create_nat_facts c p s4 s5 t5 ok5 h5
          have hsub5 : stateIds s5 ⊆ createdIds (t1 ++ t2 ++ t3 ++ t4 ++ t5) :=
            subset_step hsub4 sub5
          have hne5 : ∀ e ∈ t5, e.kind ≠ EKind.exportK := by
            intro e he
            rcases k5 e he with hk | hk | hk <;> rw [hk] <;> simp
          have hns5 : ∀ e ∈ t5, e.kind ≠ EKind.subnetK := by
            intro e he
            rcases k5 e he with hk | hk | hk <;> rw [hk] <;> simp
          cases ok5 with
          | false =>
            have hde : deploy c p false = (false, s5, t1 ++ t2 ++ t3 ++ t4 ++ t5) := by
              simp [deploy, h1, h2, h3, h4, h5]
            rw [hde] at h
            simp only [Prod.mk.injEq] at h
            obtain ⟨hr, hs, htr⟩ := h
            subst hr; subst hs; subst htr
            refine ⟨fun _ => ?_, by simp, hsub5, fun hwf => ?_, ?_⟩
            · intro fn ds hmem
              rcases List.mem_append.mp hmem with hm | hm
              · rcases List.mem_append.mp hm with hm' | hm'
                · rcases List.mem_append.mp hm' with hm'' | hm''
                  · rcases List.mem_append.mp hm'' with hm3 | hm3
                    · exact hne1 _ hm3 rfl
                    · exact hne2 _ hm3 rfl
                  · exact hne3 _ hm'' rfl
                · exact hne4 _ hm' rfl
              · exact hne5 _ hm rfl
            · have htru : truthyS s2.gateways.internet_gateway = true := by
                rw [higw2]
                exact truthyS_of_ne (hwf _ _ _ higw)
              have hb3 : ∀ e ∈ t3, e.phase = 3 := ph3 htru
              have hso13 : (((t1 ++ t2) ++ t3).map Event.phase).Pairwise (· ≤ ·) :=
                sorted_extend hso12 hbb2 (pairwise_le_of_const hb3)
                  (fun e he => by rw [hb3 e he]; omega)
              have hbb3 : ∀ e ∈ (t1 ++ t2) ++ t3, e.phase ≤ 3 := by
                intro e he
                rcases List.mem_append.mp he with he | he
                · exact le_trans (hbb2 e he) (by omega)
                · rw [hb3 e he]
              have hso14 : ((((t1 ++ t2) ++ t3) ++ t4).map Event.phase).Pairwise (· ≤ ·) :=
                sorted_extend hso13 hbb3 (pairwise_le_of_const hb4)
                  (fun e he => by rw [hb4 e he]; omega)
              have hbb4 : ∀ e ∈ ((t1 ++ t2) ++ t3) ++ t4, e.phase ≤ 4 := by
                intro e he
                rcases List.mem_append.mp he with he | he
                · exact le_trans (hbb3 e he) (by omega)
                · rw [hb4 e he]
              exact sorted_extend hso14 hbb4 ps5 (fun e he => le_trans (by omega) (pb5 e he).1)
            · intro htier
              constructor
              · rw [sn5]
                intro kv hkv
                rcases horig4 kv hkv with ⟨sc, hsc, id, rfl⟩
                exact htier sc hsc
              · intro e he v cd az n ty rr hev
                rcases List.mem_append.mp he with hm | hm
                · rcases List.mem_append.mp hm with hm' | hm'
                  · rcases List.mem_append.mp hm' with hm'' | hm''
                    · rcases List.mem_append.mp hm'' with hm3 | hm3
                      · exact absurd hev (no_createSubnet_of_kinds hns1 e hm3 v cd az n ty rr)
                      · exact absurd hev (no_createSubnet_of_kinds hns2 e hm3 v cd az n ty rr)
                    · exact absurd hev (no_createSubnet_of_kinds hns3 e hm'' v cd az n ty rr)
                  · exact htev4 htier e hm' v cd az n ty rr hev
                · exact absurd hev (no_createSubnet_of_kinds hns5 e hm v cd az n ty rr)
          | true =>
            rcases h6 : _apply_security_groups c p s5 with ⟨s6, t6, ok6⟩
            have facts6 : (∀ e ∈ t6, e.kind = EKind.sgK ∨ e.kind = EKind.ruleK) ∧
                stateIds s6 ⊆ stateIds s5 ++ createdIds t6 ∧
                s6.vpc_id = s5.vpc_id ∧ s6.subnets = s5.subnets ∧
                s6.route_tables = s5.route_tables ∧ s6.gateways = s5.gateways := by
              by_cases hemp : c.security_groups.isEmpty
              · simp only [_apply_security_groups, hemp, if_true, Prod.mk.injEq] at h6
                obtain ⟨ha, hb, hc⟩ := h6
                subst ha; subst hb
                exact ⟨by simp, by intro a ha; simp [List.mem_append]; exact Or.inl ha,
                  rfl, rfl, rfl, rfl⟩
              · simp only [_apply_security_groups, hemp, if_false] at h6
                exact applySGsGo_facts c p c.security_groups s5 s6 t6 ok6 h6
            obtain ⟨k6, sub6, v6, sn6, rt6, g6⟩ := facts6
            have hsub6 : stateIds s6 ⊆ createdIds (t1 ++ t2 ++ t3 ++ t4 ++ t5 ++ t6) :=
              subset_step hsub5 sub6
            have hne6 : ∀ e ∈ t6, e.kind ≠ EKind.exportK := by
              intro e he
              rcases k6 e he with hk | hk <;> rw [hk] <;> simp
            have hns6 : ∀ e ∈ t6, e.kind ≠ EKind.subnetK := by
              intro e he
              rcases k6 e he with hk | hk <;> rw [hk] <;> simp
            have hb6 : ∀ e ∈ t6, e.phase = 7 := fun e he => phase_of_sgK (k6 e he)
            cases ok6 with
            | false =>
              have hde : deploy c p false = (false, s6, t1 ++ t2 ++ t3 ++ t4 ++ t5 ++ t6) := by
                simp [deploy, h1, h2, h3, h4, h5, h6]
              rw [hde] at h
              simp only [Prod.mk.injEq] at h
              obtain ⟨hr, hs, htr⟩ := h
              subst hr; subst hs; subst htr
              refine ⟨fun _ => ?_, by simp, hsub6, fun hwf => ?_, ?_⟩
              · intro fn ds hmem
                rcases List.mem_append.mp hmem with hm | hm
                · rcases List.mem_append.mp hm with hm' | hm'
                  · rcases List.mem_append.mp hm' with hm'' | hm''
                    · rcases List.mem_append.mp hm'' with hm3 | hm3
                      · rcases List.mem_append.mp hm3 with hm4 | hm4
                        · exact hne1 _ hm4 rfl
                        · exact hne2 _ hm4 rfl
                      · exact hne3 _ hm3 rfl
                    · exact hne4 _ hm'' rfl
                  · exact hne5 _ hm' rfl
                · exact hne6 _ hm rfl
              · have htru : truthyS s2.gateways.internet_gateway = true := by
                  rw [higw2]
                  exact truthyS_of_ne (hwf _ _ _ higw)
                have hb3 : ∀ e ∈ t3, e.phase = 3 := ph3 htru
                have hso13 : (((t1 ++ t2) ++ t3).map Event.phase).Pairwise (· ≤ ·) :=
                  sorted_extend hso12 hbb2 (pairwise_le_of_const hb3)
                    (fun e he => by rw [hb3 e he]; omega)
                have hbb3 : ∀ e ∈ (t1 ++ t2) ++ t3, e.phase ≤ 3 := by
                  intro e he
                  rcases List.mem_append.mp he with he | he
                  · exact le_trans (hbb2 e he) (by omega)
                  · rw [hb3 e he]
                have hso14 : ((((t1 ++ t2) ++ t3) ++ t4).map Event.phase).Pairwise (· ≤ ·) :=
                  sorted_extend hso13 hbb3 (pairwise_le_of_const hb4)
                    (fun e he => by rw [hb4 e he]; omega)
                have hbb4 : ∀ e ∈ ((t1 ++ t2) ++ t3) ++ t4, e.phase ≤ 4 := by
                  intro e he
                  rcases List.mem_append.mp he with he | he
                  · exact le_trans (hbb3 e he) (by omega)
                  · rw [hb4 e he]
                have hso15 : (((((t1 ++ t2) ++ t3) ++ t4) ++ t5).map Event.phase).Pairwise (· ≤ ·) :=
                  sorted_extend hso14 hbb4 ps5 (fun e he => le_trans (by omega) (pb5 e he).1)
                have hbb5 : ∀ e ∈ (((t1 ++ t2) ++ t3) ++ t4) ++ t5, e.phase ≤ 6 := by
                  intro e he
                  rcases List.mem_append.mp he with he | he
                  · exact le_trans (hbb4 e he) (by omega)
                  · exact (pb5 e he).2
                exact sorted_extend hso15 hbb5 (pairwise_le_of_const hb6)
                  (fun e he => by rw [hb6 e he]; omega)
              · intro htier
                constructor
                · rw [sn6, sn5]
                  intro kv hkv
                  rcases horig4 kv hkv with ⟨sc, hsc, id, rfl⟩
                  exact htier sc hsc
                · intro e he v cd az n ty rr hev
                  rcases List.mem_append.mp he with hm | hm
                  · rcases List.mem_append.mp hm with hm' | hm'
                    · rcases List.mem_append.mp hm' with hm'' | hm''
                      · rcases List.mem_append.mp hm'' with hm3 | hm3
                        · rcases List.mem_append.mp hm3 with hm4 | hm4
                          · exact absurd hev (no_createSubnet_of_kinds hns1 e hm4 v cd az n ty rr)
                          · exact absurd hev (no_createSubnet_of_kinds hns2 e hm4 v cd az n ty rr)
                        · exact absurd hev (no_createSubnet_of_kinds hns3 e hm3 v cd az n ty rr)
                      · exact htev4 htier e hm'' v cd az n ty rr hev
                    · exact absurd hev (no_createSubnet_of_kinds hns5 e hm' v cd az n ty rr)
                  · exact absurd hev (no_createSubnet_of_kinds hns6 e hm v cd az n ty rr)
            | true =>
              rcases h7 : _export_state c s6 with ⟨s7, t7, ok7⟩
              obtain ⟨hs7, ht7, hok7⟩ := export_state_facts c s6 s7 t7 ok7 h7
              subst hs7
              have hde : deploy c p false =
                  (true, s7, t1 ++ t2 ++ t3 ++ t4 ++ t5 ++ t6 ++ t7) := by
                simp [deploy, h1, h2, h3, h4, h5, h6, h7]
              rw [hde] at h
              simp only [Prod.mk.injEq] at h
              obtain ⟨hr, hs, htr⟩ := h
              subst hr; subst hs; subst htr
              have hexp : Event.exportState (c.vpc_name ++ "-state.json") s7 ∈
                  t1 ++ t2 ++ t3 ++ t4 ++ t5 ++ t6 ++ t7 := by
                rw [ht7]
                simp
              refine ⟨by simp, fun _ => ⟨hexp, ?_⟩, ?_, fun hwf => ?_, ?_⟩
              · rw [ht7, List.getLast?_concat]
              · intro a ha
                have := sub6 ha
                rcases List.mem_append.mp this with hh | hh
                · have := hsub5 hh
                  rw [createdIds_append, List.mem_append]
                  left
                  rw [createdIds_append, List.mem_append]
                  exact Or.inl this
                · rw [createdIds_append, List.mem_append]
                  left
                  rw [createdIds_append, List.mem_append]
                  exact Or.inr hh
              · have htru : truthyS s2.gateways.internet_gateway = true := by
                  rw [higw2]
                  exact truthyS_of_ne (hwf _ _ _ higw)
                have hb3 : ∀ e ∈ t3, e.phase = 3 := ph3 htru
                have hso13 : (((t1 ++ t2) ++ t3).map Event.phase).Pairwise (· ≤ ·) :=
                  sorted_extend hso12 hbb2 (pairwise_le_of_const hb3)
                    (fun e he => by rw [hb3 e he]; omega)
                have hbb3 : ∀ e ∈ (t1 ++ t2) ++ t3, e.phase ≤ 3 := by
                  intro e he
                  rcases List.mem_append.mp he with he | he
                  · exact le_trans (hbb2 e he) (by omega)
                  · rw [hb3 e he]
                have hso14 : ((((t1 ++ t2) ++ t3) ++ t4).map Event.phase).Pairwise (· ≤ ·) :=
                  sorted_extend hso13 hbb3 (pairwise_le_of_const hb4)
                    (fun e he => by rw [hb4 e he]; omega)
                have hbb4 : ∀ e ∈ ((t1 ++ t2) ++ t3) ++ t4, e.phase ≤ 4 := by
                  intro e he
                  rcases List.mem_append.mp he with he | he
                  · exact le_trans (hbb3 e he) (by omega)
                  · rw [hb4 e he]
                have hso15 : (((((t1 ++ t2) ++ t3) ++ t4) ++ t5).map Event.phase).Pairwise (· ≤ ·) :=
                  sorted_extend hso14 hbb4 ps5 (fun e he => le_trans (by omega) (pb5 e he).1)
                have hbb5 : ∀ e ∈ (((t1 ++ t2) ++ t3) ++ t4) ++ t5, e.phase ≤ 6 := by
                  intro e he
                  rcases List.mem_append.mp he with he | he
                  · exact le_trans (hbb4 e he) (by omega)
                  · exact (pb5 e he).2
                have hso16 : ((((((t1 ++ t2) ++ t3) ++ t4) ++ t5) ++ t6).map Event.phase).Pairwise (· ≤ ·) :=
                  sorted_extend hso15 hbb5 (pairwise_le_of_const hb6)
                    (fun e he => by rw [hb6 e he]; omega)
                have hbb6 : ∀ e ∈ ((((t1 ++ t2) ++ t3) ++ t4) ++ t5) ++ t6, e.phase ≤ 7 := by
                  intro e he
                  rcases List.mem_append.mp he with he | he
                  · exact le_trans (hbb5 e he) (by omega)
                  · rw [hb6 e he]
                have hb7 : ∀ e ∈ t7, e.phase = 8 := by
                  rw [ht7]
                  intro e he
                  simp only [List.mem_singleton] at he
                  subst he
                  rfl
                exact sorted_extend hso16 hbb6 (pairwise_le_of_const hb7)
                  (fun e he => by rw [hb7 e he]; omega)
              · intro htier
                constructor
                · rw [sn6, sn5]
                  intro kv hkv
                  rcases horig4 kv hkv with ⟨sc, hsc, id, rfl⟩
                  exact htier sc hsc
                · intro e he v cd az n ty rr hev
                  rcases List.mem_append.mp he with hm | hm
                  · rcases List.mem_append.mp hm with hm' | hm'
                    · rcases List.mem_append.mp hm' with hm'' | hm''
                      · rcases List.mem_append.mp hm'' with hm3 | hm3
                        · rcases List.mem_append.mp hm3 with hm4 | hm4
                          · rcases List.mem_append.mp hm4 with hm5 | hm5
                            · exact absurd hev (no_createSubnet_of_kinds hns1 e hm5 v cd az n ty rr)
                            · exact absurd hev (no_createSubnet_of_kinds hns2 e hm5 v cd az n ty rr)
                          · exact absurd hev (no_createSubnet_of_kinds hns3 e hm4 v cd az n ty rr)
                        · exact htev4 htier e hm3 v cd az n ty rr hev
                      · exact absurd hev (no_createSubnet_of_kinds hns5 e hm'' v cd az n ty rr)
                    · exact absurd hev (no_createSubnet_of_kinds hns6 e hm' v cd az n ty rr)
                  · rw [ht7] at hm
                    simp only [List.mem_singleton] at hm
                    subst hm
                    cases hev

theorem isIgwRoute_false_of_kind {e : Event} (h : e.kind ≠ EKind.routeK) :
    isIgwRoute e = false := by
  cases e <;> first | rfl | exact absurd rfl h

theorem mem_zip_right {α β : Type} :
    ∀ (l1 : List α) (l2 : List β), l1.length = l2.length →
      ∀ b ∈ l2, ∃ q ∈ l1.zip l2, q.2 = b := by
  intro l1
  induction l1 with
  | nil =>
    intro l2 hlen b hb
    cases l2 with
    | nil => cases hb
    | cons x xs => cases hlen
  | cons a t ih =>
    intro l2 hlen b hb
    cases l2 with
    | nil => cases hb
    | cons x xs =>
      simp only [List.length_cons, Nat.succ.injEq] at hlen
      simp only [List.mem_cons] at hb
      rcases hb with rfl | hb
      · exact ⟨(a, b), by simp, rfl⟩
      · rcases ih xs hlen b hb with ⟨q, hq, hq2⟩
        exact ⟨q, by simp [List.zip_cons_cons, List.mem_cons]; tauto, hq2⟩

/-- Facts about every successful (non-dry-run) deployment: each pipeline
step ran exactly once (witnessed by call counts), and — when the
configured names are distinct — the state's subnet entries and the
created identifiers match the trace exactly. -/
theorem deploy_ok_facts (c : Config) (p : Provider) (s : DeployState)
    (tr : List Event) (h : deploy c p false = (true, s, tr)) :
    kcount EKind.vpcK tr = 1 ∧ kcount EKind.igwK tr = 1 ∧
    kcount EKind.rtK tr = 2 ∧ kcount EKind.subnetK tr = c.subnets.length ∧
    kcount EKind.sgK tr = c.security_groups.length ∧
    kcount EKind.exportK tr = 1 ∧
    (ProviderWF p → tr.countP isIgwRoute = 1) ∧
    ((c.subnets.map SubnetSpec.name).Nodup →
      ∃ ids : List String, ids.length = c.subnets.length ∧
        s.subnets = (c.subnets.zip ids).map
          (fun q => (q.1.name, SubnetInfo.mk q.2 q.1.cidr q.1.az q.1.type)) ∧
        (∀ q ∈ c.subnets.zip ids, ∃ v,
          Event.createSubnet v q.1.cidr q.1.az q.1.name q.1.type (some q.2) ∈ tr)) ∧
    ((c.subnets.map SubnetSpec.name).Nodup →
      (c.security_groups.map Prod.fst).Nodup →
      createdIds tr ⊆ stateIds s) := by
  rcases h1 : _create_vpc c p initState with ⟨s1, t1, ok1⟩
  obtain ⟨k1, sub1, sn1, rt1, g1, sg1, d1⟩ := create_vpc_facts c p initState s1 t1 ok1 h1
  cases ok1 with
  | false =>
    have hde : (deploy c p false).1 = false := by simp [deploy, h1]
    rw [h] at hde
    simp at hde
  | true =>
    obtain ⟨vpcId, hs1, ht1⟩ := d1 rfl
    subst ht1
    rcases h2 : _create_internet_gateway c p s1 with ⟨s2, t2, ok2⟩
    obtain ⟨k2, sub2, v2, sn2, rt2, gn2, sg2, d2⟩ := create_igw_facts c p s1 s2 t2 ok2 h2
    cases ok2 with
    | false =>
      have hde : (deploy c p false).1 = false := by simp [deploy, h1, h2]
      rw [h] at hde
      simp at hde
    | true =>
      obtain ⟨igwId, higw, hs2, ht2⟩ := d2 rfl
      subst ht2
      rcases h3 : _create_route_tables c p s2 with ⟨s3, t3, ok3⟩
      obtain ⟨k3, ph3, sub3, v3, sn3, g3, sg3, d3⟩ := create_route_tables_facts c p s2 s3 t3 ok3 h3
      cases ok3 with
      | false =>
        have hde : (deploy c p false).1 = false := by simp [deploy, h1, h2, h3]
        rw [h] at hde
        simp at hde
      | true =>
        obtain ⟨pub, priv, hs3, ht3⟩ := d3 rfl
        subst ht3
        rcases h4 : _create_subnets c p s3 with ⟨s4, t4, ok4⟩
        obtain ⟨k4, sub4, v4, rt4, g4, sg4, orig4, ev4⟩ :=
          createSubnetsGo_facts c p c.subnets s3 s4 t4 ok4 h4
        cases ok4 with
        | false =>
          have hde : (deploy c p false).1 = false := by
            simp [deploy, h1, h2, h3, h4]
          rw [h] at hde
          simp at hde
        | true =>
          rcases h5 : _create_nat_gateway c p s4 with ⟨s5, t5, ok5⟩
          obtain ⟨pb5, ps5, k5, ir5, sub5, v5, sn5, rt5, sg5, gi5, d5⟩ :=
            create_nat_facts c p s4 s5 t5 ok5 h5
          cases ok5 with
          | false =>
            have hde : (deploy c p false).1 = false := by
              simp [deploy, h1, h2, h3, h4, h5]
            rw [h] at hde
            simp at hde
          | true =>
            rcases h6 : _apply_security_groups c p s5 with ⟨s6, t6, ok6⟩
            cases ok6 with
            | false =>
              have hde : (deploy c p false).1 = false := by
                simp [deploy, h1, h2, h3, h4, h5, h6]
              rw [h] at hde
              simp at hde
            | true =>
              rcases h7 : _export_state c s6 with ⟨s7, t7, ok7⟩
              obtain ⟨hs7, ht7, hok7⟩ := export_state_facts c s6 s7 t7 ok7 h7
              subst ht7
              have hde : deploy c p false =
                  (true, s7, (([Event.createVpc c.cidr c.vpc_name
                      (c.enable_dns_hostnames.getD true) (c.enable_dns_support.getD true)
                      c.tags (some vpcId)] ++
                    [Event.createInternetGateway (s1.vpc_id.getD "") (c.vpc_name ++ "-igw")
                      (some igwId)]) ++
                    [Event.createRouteTable (s2.vpc_id.getD "") (c.vpc_name ++ "-public-rt")
                       (some pub),
                     Event.addRoute (VPCManager.add_route_params pub "0.0.0.0/0"
                       s2.gateways.internet_gateway none) (some ()),
                     Event.createRouteTable (s2.vpc_id.getD "") (c.vpc_name ++ "-private-rt")
                       (some priv)]) ++
                    t4 ++ t5 ++ t6 ++
                    [Event.exportState (c.vpc_name ++ "-state.json") s6]) := by
                simp [deploy, h1, h2, h3, h4, h5, h6, h7]
              rw [hde] at h
              simp only [Prod.mk.injEq, true_and] at h
              obtain ⟨hs, htr⟩ := h
              subst hs; subst htr
              have hf6 : (∀ e ∈ t6, e.kind = EKind.sgK ∨ e.kind = EKind.ruleK) ∧
                  kcount EKind.sgK t6 = c.security_groups.length ∧
                  s6.vpc_id = s5.vpc_id ∧ s6.subnets = s5.subnets ∧
                  s6.route_tables = s5.route_tables ∧ s6.gateways = s5.gateways ∧
                  ((c.security_groups.map Prod.fst).Nodup →
                    ∃ ids2 : List String, ids2.length = c.security_groups.length ∧
                      s6.security_groups = s5.security_groups ++
                        (c.security_groups.zip ids2).map (fun q => (q.1.1, q.2)) ∧
                      createdIds t6 = ids2) := by
                by_cases hemp : c.security_groups.isEmpty
                · have hcse : c.security_groups = [] := by
                    simpa [List.isEmpty_iff] using hemp
                  simp only [_apply_security_groups, hemp, if_true, Prod.mk.injEq] at h6
                  obtain ⟨ha, hb, hcc⟩ := h6
                  refine ⟨?_, ?_, by rw [← ha], by rw [← ha], by rw [← ha], by rw [← ha], ?_⟩
                  · rw [← hb]
                    simp
                  · rw [← hb, hcse]
                    rfl
                  · intro hnsg
                    exact ⟨[], by rw [hcse]; rfl, by rw [← ha, hcse]; simp, by rw [← hb]; rfl⟩
                · simp only [_apply_security_groups, hemp, if_false] at h6
                  obtain ⟨k6, sub6, v6, sn6, rt6, g6⟩ :=
                    applySGsGo_facts c p c.security_groups s5 s6 t6 true h6
                  have hcnt6 := applySGsGo_count c p c.security_groups s5 s6 t6 h6
                  refine ⟨k6, hcnt6, v6, sn6, rt6, g6, ?_⟩
                  intro hnsg
                  have hsg5 : s5.security_groups = [] := by
                    rw [sg5, sg4, sg3, sg2, sg1]
                    rfl
                  have hfr : ((s5.security_groups.map Prod.fst) ++
                      c.security_groups.map Prod.fst).Nodup := by
                    rw [hsg5]
                    simpa using hnsg
                  obtain ⟨ids2, hlen2, hsg6, hcr2⟩ :=
                    applySGsGo_fresh c p c.security_groups s5 s6 t6 h6 hfr
                  exact ⟨ids2, hlen2, hsg6, hcr2⟩
              obtain ⟨k6, hcnt6, f6v, f6sn, f6rt, f6gw, f6fresh⟩ := hf6
              have hcnt4 := createSubnetsGo_count c p c.subnets s3 s4 t4 h4
              have hcnt4k : kcount EKind.subnetK t4 = c.subnets.length := hcnt4
              have zk4 : ∀ k : EKind, k ≠ EKind.subnetK → k ≠ EKind.assocK →
                  kcount k t4 = 0 := by
                intro k hk1 hk2
                apply kcount_zero_of_kinds
                intro e he
                rcases k4 e he with hk | hk <;> rw [hk]
                · exact fun hcon => hk1 hcon.symm
                · exact fun hcon => hk2 hcon.symm
              have zk5 : ∀ k : EKind, k ≠ EKind.natK → k ≠ EKind.warnK →
                  k ≠ EKind.routeK → kcount k t5 = 0 := by
                intro k hk1 hk2 hk3
                apply kcount_zero_of_kinds
                intro e he
                rcases k5 e he with hk | hk | hk <;> rw [hk]
                · exact fun hcon => hk1 hcon.symm
                · exact fun hcon => hk2 hcon.symm
                · exact fun hcon => hk3 hcon.symm
              have zk6 : ∀ k : EKind, k ≠ EKind.sgK → k ≠ EKind.ruleK →
                  kcount k t6 = 0 := by
                intro k hk1 hk2
                apply kcount_zero_of_kinds
                intro e he
                rcases k6 e he with hk | hk <;> rw [hk]
                · exact fun hcon => hk1 hcon.symm
                · exact fun hcon => hk2 hcon.symm
              have hsn3 : s3.subnets = [] := by rw [hs3, hs2, hs1]; rfl
              have hsubFacts : (c.subnets.map SubnetSpec.name).Nodup →
                  ∃ ids : List String, ids.length = c.subnets.length ∧
                    s4.subnets = (c.subnets.zip ids).map
                      (fun q => (q.1.name, SubnetInfo.mk q.2 q.1.cidr q.1.az q.1.type)) ∧
                    createdIds t4 = ids ∧
                    (∀ q ∈ c.subnets.zip ids, ∃ v,
                      Event.createSubnet v q.1.cidr q.1.az q.1.name q.1.type (some q.2) ∈ t4) := by
                intro hnds
                have hfr : ((s3.subnets.map Prod.fst) ++
                    c.subnets.map SubnetSpec.name).Nodup := by
                  rw [hsn3]
                  simpa using hnds
                obtain ⟨ids, hlen, hsubn, hcr, hev⟩ :=
                  createSubnetsGo_fresh c p c.subnets s3 s4 t4 h4 hfr
                rw [hsn3, List.nil_append] at hsubn
                exact ⟨ids, hlen, hsubn, hcr, hev⟩
              refine ⟨?_, ?_, ?_, ?_, ?_, ?_, ?_, ?_, ?_⟩
              · rw [kcount_append, kcount_append, kcount_append, kcount_append,
                  kcount_append, kcount_append,
                  zk4 EKind.vpcK (by simp) (by simp),
                  zk5 EKind.vpcK (by simp) (by simp) (by simp),
                  zk6 EKind.vpcK (by simp) (by simp)]
                show 1 + 0 + 0 + 0 + 0 + 0 + 0 = 1
                rfl
              · rw [kcount_append, kcount_append, kcount_append, kcount_append,
                  kcount_append, kcount_append,
                  zk4 EKind.igwK (by simp) (by simp),
                  zk5 EKind.igwK (by simp) (by simp) (by simp),
                  zk6 EKind.igwK (by simp) (by simp)]
                show 0 + 1 + 0 + 0 + 0 + 0 + 0 = 1
                rfl
              · rw [kcount_append, kcount_append, kcount_append, kcount_append,
                  kcount_append, kcount_append,
                  zk4 EKind.rtK (by simp) (by simp),
                  zk5 EKind.rtK (by simp) (by simp) (by simp),
                  zk6 EKind.rtK (by simp) (by simp)]
                show 0 + 0 + 2 + 0 + 0 + 0 + 0 = 2
                rfl
              · rw [kcount_append, kcount_append, kcount_append, kcount_append,
                  kcount_append, kcount_append, hcnt4k,
                  zk5 EKind.subnetK (by simp) (by simp) (by simp),
                  zk6 EKind.subnetK (by simp) (by simp)]
                show 0 + 0 + 0 + c.subnets.length + 0 + 0 + 0 = c.subnets.length
                omega
              · rw [kcount_append, kcount_append, kcount_append, kcount_append,
                  kcount_append, kcount_append, hcnt6,
                  zk4 EKind.sgK (by simp) (by simp),
                  zk5 EKind.sgK (by simp) (by simp) (by simp)]
                show 0 + 0 + 0 + 0 + 0 + c.security_groups.length + 0 = c.security_groups.length
                omega
              · rw [kcount_append, kcount_append, kcount_append, kcount_append,
                  kcount_append, kcount_append,
                  zk4 EKind.exportK (by simp) (by simp),
                  zk5 EKind.exportK (by simp) (by simp) (by simp),
                  zk6 EKind.exportK (by simp) (by simp)]
                show 0 + 0 + 0 + 0 + 0 + 0 + 1 = 1
                rfl
              · intro hwf
                have higw2 : s2.gateways.internet_gateway = some igwId := by rw [hs2]
                have htru : truthyS (some igwId) = true :=
                  truthyS_of_ne (hwf _ _ _ higw)
                have z4r : t4.countP isIgwRoute = 0 := by
                  apply List.countP_eq_zero.mpr
                  intro e he
                  simp only [Bool.not_eq_true]
                  apply isIgwRoute_false_of_kind
                  rcases k4 e he with hk | hk <;> rw [hk] <;> simp
                have z5r : t5.countP isIgwRoute = 0 := by
                  apply List.countP_eq_zero.mpr
                  intro e he
                  simp [ir5 e he]
                have z6r : t6.countP isIgwRoute = 0 := by
                  apply List.countP_eq_zero.mpr
                  intro e he
                  simp only [Bool.not_eq_true]
                  apply isIgwRoute_false_of_kind
                  rcases k6 e he with hk | hk <;> rw [hk] <;> simp
                rw [List.countP_append, List.countP_append, List.countP_append,
                  List.countP_append, List.countP_append, List.countP_append,
                  z4r, z5r, z6r, higw2, add_route_params_gateway htru]
                show 0 + 0 + 1 + 0 + 0 + 0 + 0 = 1
                rfl
              · intro hnds
                obtain ⟨ids, hlen, hsubn, hcr, hev⟩ := hsubFacts hnds
                refine ⟨ids, hlen, ?_, ?_⟩
                · rw [hs7, f6sn, sn5, hsubn]
                · intro q hq
                  obtain ⟨v, hv⟩ := hev q hq
                  exact ⟨v, List.mem_append_left _ (List.mem_append_left _
                    (List.mem_append_left _ (List.mem_append_right _ hv)))⟩
              · intro hnds hnsg
                obtain ⟨ids, hlen, hsubn, hcr, hev⟩ := hsubFacts hnds
                obtain ⟨ids2, hlen2, hsg6, hcr2⟩ := f6fresh hnsg
                have hsg5 : s5.security_groups = [] := by
                  rw [sg5, sg4, sg3, sg2, sg1]
                  rfl
                rw [hsg5, List.nil_append] at hsg6
                have hvpc7 : s7.vpc_id = some vpcId := by
                  rw [hs7, f6v, v5, v4, v3, hs2, hs1]
                have higw7 : s7.gateways.internet_gateway = some igwId := by
                  rw [hs7, f6gw, gi5, g4, g3, hs2]
                have hrt2e : s2.route_tables = [] := by
                  rw [hs2, hs1]
                  rfl
                have hrt7 : s7.route_tables = [("public", pub), ("private", priv)] := by
                  rw [hs7, f6rt, rt5, rt4, hs3, hrt2e]
                  simp [dictSet]
                have hsn7 : s7.subnets = (c.subnets.zip ids).map
                    (fun q => (q.1.name, SubnetInfo.mk q.2 q.1.cidr q.1.az q.1.type)) := by
                  rw [hs7, f6sn, sn5, hsubn]
                have hsg7 : s7.security_groups = (c.security_groups.zip ids2).map
                    (fun q => (q.1.1, q.2)) := by
                  rw [hs7, hsg6]
                intro a ha
                rw [createdIds_append, createdIds_append, createdIds_append,
                  createdIds_append, createdIds_append, createdIds_append] at ha
                simp only [List.mem_append] at ha
                simp only [stateIds, List.mem_append]
                rcases ha with ((((((ha | ha) | ha) | ha) | ha) | ha) | ha)
                · have : a = vpcId := by
                    simpa [createdIds, createdId] using ha
                  subst this
                  left; left; left; left; left
                  simp [optIds, hvpc7]
                · have : a = igwId := by
                    simpa [createdIds, createdId] using ha
                  subst this
                  left; left
                  right
                  simp [optIds, higw7]
                · have : a = pub ∨ a = priv := by
                    simpa [createdIds, createdId] using ha
                  left; left; left
                  right
                  rw [hrt7]
                  rcases this with rfl | rfl <;> simp
                · rw [hcr] at ha
                  obtain ⟨q, hq, hq2⟩ := mem_zip_right c.subnets ids hlen.symm a ha
                  left; left; left; left
                  right
                  rw [hsn7]
                  simp only [List.mem_map]
                  refine ⟨(q.1.name, SubnetInfo.mk q.2 q.1.cidr q.1.az q.1.type), ?_, ?_⟩
                  · exact ⟨q, hq, rfl⟩
                  · simp [hq2]
                · rcases d5 rfl with ⟨hs5, hΔ5⟩ | ⟨natId, eip, hs5, hc5⟩
                  · rcases hΔ5 with rfl | rfl
                    · simp [createdIds] at ha
                    · simp [createdIds, createdId] at ha
                  · rw [hc5] at ha
                    simp only [List.mem_singleton] at ha
                    subst ha
                    left
                    right
                    have : s7.gateways.nat_gateway = some (NatInfo.mk a eip) := by
                      rw [hs7, f6gw, hs5]
                    simp [natIds, this]
                · rw [hcr2] at ha
                  obtain ⟨q, hq, hq2⟩ := mem_zip_right c.security_groups ids2 hlen2.symm a ha
                  right
                  rw [hsg7]
                  simp only [List.mem_map]
                  refine ⟨(q.1.1, q.2), ?_, ?_⟩
                  · exact ⟨q, hq, rfl⟩
                  · exact hq2
                · simp [createdIds, createdId] at ha

/-! Teardown lemmas: each deletion step issues an initial segment of its
planned calls, complete when the step succeeded. -/

theorem delListGo_facts (del : String → Option Unit) (mk : String → TCall) :
    ∀ (ids : List String) (evs : List (TCall × Bool)) (ok : Bool),
      delListGo del mk ids = (evs, ok) →
      ∃ rest, ids.map mk = evs.map Prod.fst ++ rest ∧ (ok = true → rest = []) := by
  intro ids
  induction ids with
  | nil =>
    intro evs ok h
    simp only [delListGo, Prod.mk.injEq] at h
    obtain ⟨h1, h2⟩ := h
    subst h1
    exact ⟨[], by simp, fun _ => rfl⟩
  | cons id rest ih =>
    intro evs ok h
    cases hdel : del id with
    | none =>
      simp only [delListGo, hdel, Prod.mk.injEq] at h
      obtain ⟨h1, h2⟩ := h
      subst h1
      exact ⟨rest.map mk, by simp, fun hcon => absurd h2.symm (by rw [hcon]; simp)⟩
    | some uu =>
      rcases hrec : delListGo del mk rest with ⟨evs', ok'⟩
      simp only [delListGo, hdel, hrec, Prod.mk.injEq] at h
      obtain ⟨h1, h2⟩ := h
      subst h1
      rw [h2] at hrec
      obtain ⟨r, hr, hrok⟩ := ih evs' ok hrec
      exact ⟨r, by simp [hr], hrok⟩

theorem delete_nat_facts (p : Provider) (st : DeployState)
    (evs : List (TCall × Bool)) (ok : Bool)
    (h : _delete_nat_gateways p st = (evs, ok)) :
    ∃ rest, planNat st = evs.map Prod.fst ++ rest ∧ (ok = true → rest = []) := by
  cases hng : st.gateways.nat_gateway with
  | none =>
    simp only [_delete_nat_gateways, hng, Prod.mk.injEq] at h
    obtain ⟨h1, h2⟩ := h
    subst h1
    exact ⟨[], by simp [planNat, hng], fun _ => rfl⟩
  | some nat =>
    cases hdel : p.delete_nat_gateway nat.id with
    | none =>
      simp only [_delete_nat_gateways, hng, hdel, Prod.mk.injEq] at h
      obtain ⟨h1, h2⟩ := h
      subst h1
      exact ⟨[], by simp [planNat, hng], fun _ => rfl⟩
    | some uu =>
      simp only [_delete_nat_gateways, hng, hdel, Prod.mk.injEq] at h
      obtain ⟨h1, h2⟩ := h
      subst h1
      exact ⟨[], by simp [planNat, hng], fun _ => rfl⟩

theorem delete_igw_facts (p : Provider) (st : DeployState)
    (evs : List (TCall × Bool)) (ok : Bool)
    (h : _delete_internet_gateways p st = (evs, ok)) :
    ∃ rest, planIgw st = evs.map Prod.fst ++ rest ∧ (ok = true → rest = []) := by
  cases hig : st.gateways.internet_gateway with
  | none =>
    simp only [_delete_internet_gateways, hig, Prod.mk.injEq] at h
    obtain ⟨h1, h2⟩ := h
    subst h1
    exact ⟨[], by simp [planIgw, hig], fun _ => rfl⟩
  | some igw =>
    cases hdel : p.delete_internet_gateway igw (st.vpc_id.getD "") with
    | none =>
      simp only [_delete_internet_gateways, hig, hdel, Prod.mk.injEq] at h
      obtain ⟨h1, h2⟩ := h
      subst h1
      exact ⟨[], by simp [planIgw, hig], fun _ => rfl⟩
    | some uu =>
      simp only [_delete_internet_gateways, hig, hdel, Prod.mk.injEq] at h
      obtain ⟨h1, h2⟩ := h
      subst h1
      exact ⟨[], by simp [planIgw, hig], fun _ => rfl⟩

theorem delete_vpc_facts (p : Provider) (st : DeployState)
    (evs : List (TCall × Bool)) (ok : Bool)
    (h : _delete_vpc p st = (evs, ok)) :
    ∃ rest, planVpc st = evs.map Prod.fst ++ rest ∧ (ok = true → rest = []) := by
  by_cases htr : truthyS st.vpc_id = true
  · cases hdel : p.delete_vpc (st.vpc_id.getD "") with
    | none =>
      simp only [_delete_vpc, htr, if_true, hdel, Prod.mk.injEq] at h
      obtain ⟨h1, h2⟩ := h
      subst h1
      exact ⟨[], by simp [planVpc, htr], fun _ => rfl⟩
    | some uu =>
      simp only [_delete_vpc, htr, if_true, hdel, Prod.mk.injEq] at h
      obtain ⟨h1, h2⟩ := h
      subst h1
      exact ⟨[], by simp [planVpc, htr], fun _ => rfl⟩
  · rw [Bool.not_eq_true] at htr
    simp only [_delete_vpc, htr, Bool.false_eq_true, if_false, Prod.mk.injEq] at h
    obtain ⟨h1, h2⟩ := h
    subst h1
    exact ⟨[], by simp [planVpc, htr], fun _ => rfl⟩

/-- Every teardown run issues an initial segment of the fixed-order
deletion plan, and the whole plan exactly when it returns success. -/
theorem teardown_facts (st : DeployState) (p : Provider) (r : Bool)
    (tr : List (TCall × Bool)) (h : teardown st p = (r, tr)) :
    (∃ rest, teardownPlan st = tr.map Prod.fst ++ rest) ∧
    (r = true → tr.map Prod.fst = teardownPlan st) := by
  rcases hN : _delete_nat_gateways p st with ⟨T1, ok1⟩
  obtain ⟨r1, hp1, hr1⟩ := delete_nat_facts p st T1 ok1 hN
  cases ok1 with
  | false =>
    have hde : teardown st p = (false, T1) := by simp [teardown, hN]
    rw [hde] at h
    simp only [Prod.mk.injEq] at h
    obtain ⟨hr, htr⟩ := h
    subst hr; subst htr
    refine ⟨?_, by simp⟩
    exact ⟨r1 ++ (planIgw st ++ ((st.subnets.map (fun kv => TCall.delSubnet kv.2.id)) ++
      ((st.route_tables.map (fun kv => TCall.delRouteTable kv.2)) ++
      ((st.security_groups.map (fun kv => TCall.delSecurityGroup kv.2)) ++ planVpc st)))),
      by rw [teardownPlan, hp1]; simp [List.append_assoc]⟩
  | true =>
    have hp1e : planNat st = T1.map Prod.fst := by rw [hp1, hr1 rfl, List.append_nil]
    rcases hI : _delete_internet_gateways p st with ⟨T2, ok2⟩
    obtain ⟨r2, hp2, hr2⟩ := delete_igw_facts p st T2 ok2 hI
    cases ok2 with
    | false =>
      have hde : teardown st p = (false, T1 ++ T2) := by simp [teardown, hN, hI]
      rw [hde] at h
      simp only [Prod.mk.injEq] at h
      obtain ⟨hr, htr⟩ := h
      subst hr; subst htr
      refine ⟨?_, by simp⟩
      exact ⟨r2 ++ ((st.subnets.map (fun kv => TCall.delSubnet kv.2.id)) ++
        ((st.route_tables.map (fun kv => TCall.delRouteTable kv.2)) ++
        ((st.security_groups.map (fun kv => TCall.delSecurityGroup kv.2)) ++ planVpc st))),
        by rw [teardownPlan, hp1e, hp2]; simp [List.map_append, List.append_assoc]⟩
    | true =>
      have hp2e : planIgw st = T2.map Prod.fst := by rw [hp2, hr2 rfl, List.append_nil]
      rcases hS : _delete_subnets p st with ⟨T3, ok3⟩
      obtain ⟨r3, hp3, hr3⟩ :=
        delListGo_facts p.delete_subnet TCall.delSubnet _ T3 ok3 hS
      cases ok3 with
      | false =>
        have hde : teardown st p = (false, T1 ++ T2 ++ T3) := by
          simp [teardown, hN, hI, hS]
        rw [hde] at h
        simp only [Prod.mk.injEq] at h
        obtain ⟨hr, htr⟩ := h
        subst hr; subst htr
        refine ⟨?_, by simp⟩
        refine ⟨r3 ++ ((st.route_tables.map (fun kv => TCall.delRouteTable kv.2)) ++
          ((st.security_groups.map (fun kv => TCall.delSecurityGroup kv.2)) ++ planVpc st)), ?_⟩
        have hmm : st.subnets.map (fun kv => TCall.delSubnet kv.2.id) =
            (st.subnets.map (fun kv => kv.2.id)).map TCall.delSubnet := by
          simp [List.map_map]
        rw [teardownPlan, hp1e, hp2e, hmm, hp3]
        simp [List.map_append, List.append_assoc]
      | true =>
        have hp3e : st.subnets.map (fun kv => TCall.delSubnet kv.2.id) = T3.map Prod.fst := by
          have hmm : st.subnets.map (fun kv => TCall.delSubnet kv.2.id) =
              (st.subnets.map (fun kv => kv.2.id)).map TCall.delSubnet := by
            simp [List.map_map]
          rw [hmm, hp3, hr3 rfl, List.append_nil]
        rcases hR : _delete_route_tables p st with ⟨T4, ok4⟩
        obtain ⟨r4, hp4, hr4⟩ :=
          delListGo_facts p.delete_route_table TCall.delRouteTable _ T4 ok4 hR
        cases ok4 with
        | false =>
          have hde : teardown st p = (false, T1 ++ T2 ++ T3 ++ T4) := by
            simp [teardown, hN, hI, hS, hR]
          rw [hde] at h
          simp only [Prod.mk.injEq] at h
          obtain ⟨hr, htr⟩ := h
          subst hr; subst htr
          refine ⟨?_, by simp⟩
          refine ⟨r4 ++ ((st.security_groups.map (fun kv => TCall.delSecurityGroup kv.2)) ++
            planVpc st), ?_⟩
          have hmm : st.route_tables.map (fun kv => TCall.delRouteTable kv.2) =
              (st.route_tables.map Prod.snd).map TCall.delRouteTable := by
            simp [List.map_map]
          rw [teardownPlan, hp1e, hp2e, hp3e, hmm, hp4]
          simp [List.map_append, List.append_assoc]
        | true =>
          have hp4e : st.route_tables.map (fun kv => TCall.delRouteTable kv.2) =
              T4.map Prod.fst := by
            have hmm : st.route_tables.map (fun kv => TCall.delRouteTable kv.2) =
                (st.route_tables.map Prod.snd).map TCall.delRouteTable := by
              simp [List.map_map]
            rw [hmm, hp4, hr4 rfl, List.append_nil]
          rcases hG : _delete_security_groups p st with ⟨T5, ok5⟩
          obtain ⟨r5, hp5, hr5⟩ :=
            delListGo_facts p.delete_security_group TCall.delSecurityGroup _ T5 ok5 hG
          cases ok5 with
          | false =>
            have hde : teardown st p = (false, T1 ++ T2 ++ T3 ++ T4 ++ T5) := by
              simp [teardown, hN, hI, hS, hR, hG]
            rw [hde] at h
            simp only [Prod.mk.injEq] at h
            obtain ⟨hr, htr⟩ := h
            subst hr; subst htr
            refine ⟨?_, by simp⟩
            refine ⟨r5 ++ planVpc st, ?_⟩
            have hmm : st.security_groups.map (fun kv => TCall.delSecurityGroup kv.2) =
                (st.security_groups.map Prod.snd).map TCall.delSecurityGroup := by
              simp [List.map_map]
            rw [teardownPlan, hp1e, hp2e, hp3e, hp4e, hmm, hp5]
            simp [List.map_append, List.append_assoc]
          | true =>
            have hp5e : st.security_groups.map (fun kv => TCall.delSecurityGroup kv.2) =
                T5.map Prod.fst := by
              have hmm : st.security_groups.map (fun kv => TCall.delSecurityGroup kv.2) =
                  (st.security_groups.map Prod.snd).map TCall.delSecurityGroup := by
                simp [List.map_map]
              rw [hmm, hp5, hr5 rfl, List.append_nil]
            rcases hV : _delete_vpc p st with ⟨T6, ok6⟩
            obtain ⟨r6, hp6, hr6⟩ := delete_vpc_facts p st T6 ok6 hV
            cases ok6 with
            | false =>
              have hde : teardown st p = (false, T1 ++ T2 ++ T3 ++ T4 ++ T5 ++ T6) := by
                simp [teardown, hN, hI, hS, hR, hG, hV]
              rw [hde] at h
              simp only [Prod.mk.injEq] at h
              obtain ⟨hr, htr⟩ := h
              subst hr; subst htr
              refine ⟨⟨r6, ?_⟩, by simp⟩
              rw [teardownPlan, hp1e, hp2e, hp3e, hp4e, hp5e, hp6]
              simp [List.map_append, List.append_assoc]
            | true =>
              have hp6e : planVpc st = T6.map Prod.fst := by
                rw [hp6, hr6 rfl, List.append_nil]
              have hde : teardown st p = (true, T1 ++ T2 ++ T3 ++ T4 ++ T5 ++ T6) := by
                simp [teardown, hN, hI, hS, hR, hG, hV]
              rw [hde] at h
              simp only [Prod.mk.injEq] at h
              obtain ⟨hr, htr⟩ := h
              subst hr; subst htr
              have heq : ((T1 ++ T2 ++ T3 ++ T4 ++ T5 ++ T6).map Prod.fst) =
                  teardownPlan st := by
                rw [teardownPlan, hp1e, hp2e, hp3e, hp4e, hp5e, hp6e]
                simp [List.map_append, List.append_assoc]
              exact ⟨⟨[], by rw [heq, List.append_nil]⟩, fun _ => heq⟩

/-! Dry-run validation lemmas. -/

theorem dryRunSubnets_ok : ∀ l : List SubnetSpec,
    (dryRunSubnets l).1 = true ↔ ∀ sp ∈ l, validate_cidr sp.cidr = true := by
  intro l
  induction l with
  | nil => simp [dryRunSubnets]
  | cons sp rest ih =>
    by_cases hv : validate_cidr sp.cidr = true
    · rcases hrec : dryRunSubnets rest with ⟨ok, tr⟩
      rw [hrec] at ih
      simp only [dryRunSubnets, hv, if_true, hrec]
      constructor
      · intro hok sp' hsp'
        rcases List.mem_cons.mp hsp' with rfl | hm
        · exact hv
        · exact ih.mp hok sp' hm
      · intro hall
        exact ih.mpr (fun sp' hm => hall sp' (List.mem_cons_of_mem _ hm))
    · rw [Bool.not_eq_true] at hv
      simp only [dryRunSubnets, hv, Bool.false_eq_true, if_false]
      constructor
      · intro hcon
        cases hcon
      · intro hall
        rw [hall sp (by simp)] at hv
        cases hv

theorem dryRunSubnets_trace : ∀ l : List SubnetSpec,
    (dryRunSubnets l).2 = checkedUpTo (l.map (fun sp => sp.cidr)) := by
  intro l
  induction l with
  | nil => simp [dryRunSubnets, checkedUpTo]
  | cons sp rest ih =>
    by_cases hv : validate_cidr sp.cidr = true
    · rcases hrec : dryRunSubnets rest with ⟨ok, tr⟩
      rw [hrec] at ih
      simp only [dryRunSubnets, hv, if_true, hrec, List.map_cons, checkedUpTo]
      simp only at ih
      rw [ih]
    · rw [Bool.not_eq_true] at hv
      simp only [dryRunSubnets, hv, Bool.false_eq_true, if_false, List.map_cons, checkedUpTo]

/-! The claims. -/

/-- C10: in the request record built by `VPCManager.add_route`, at most
one of `GatewayId` and `NatGatewayId` is ever set; when both arguments
are supplied as non-empty values, `gateway_id` takes precedence and
`nat_gateway_id` is ignored. -/
theorem C10_route_target_precedence :
    (∀ (rt dc : String) (g n : Option String),
      ¬((VPCManager.add_route_params rt dc g n).GatewayId ≠ none ∧
        (VPCManager.add_route_params rt dc g n).NatGatewayId ≠ none)) ∧
    (∀ (rt dc : String) (g n : Option String),
      truthyS g = true → truthyS n = true →
      (VPCManager.add_route_params rt dc g n).GatewayId = g ∧
      (VPCManager.add_route_params rt dc g n).NatGatewayId = none) := by
  constructor
  · rintro rt dc g n ⟨hg, hn⟩
    by_cases htg : truthyS g = true
    · rw [add_route_params_gateway htg] at hn
      exact hn rfl
    · rw [Bool.not_eq_true] at htg
      by_cases htn : truthyS n = true
      · simp only [VPCManager.add_route_params, htg, Bool.false_eq_true, if_false,
          htn, if_true] at hg
        exact hg rfl
      · rw [Bool.not_eq_true] at htn
        simp only [VPCManager.add_route_params, htg, htn, Bool.false_eq_true,
          if_false] at hg
        exact hg rfl
  · intro rt dc g n hg hn
    rw [add_route_params_gateway hg]
    exact ⟨rfl, rfl⟩

/-- C10 witness: with both targets supplied non-empty, the issued request
carries only the internet-gateway target. -/
theorem C10_witness :
    truthyS (some "igw-1") = true ∧ truthyS (some "nat-1") = true ∧
    (VPCManager.add_route_params "rt-1" "0.0.0.0/0" (some "igw-1") (some "nat-1")).GatewayId =
      some "igw-1" ∧
    (VPCManager.add_route_params "rt-1" "0.0.0.0/0" (some "igw-1") (some "nat-1")).NatGatewayId =
      none :=
  ⟨by decide, by decide,
    (C10_route_target_precedence.2 "rt-1" "0.0.0.0/0" (some "igw-1") (some "nat-1")
      (by decide) (by decide)).1,
    (C10_route_target_precedence.2 "rt-1" "0.0.0.0/0" (some "igw-1") (some "nat-1")
      (by decide) (by decide)).2⟩

/-- C9: `add_ingress_rule` raises exactly when the client call fails with
an error other than a duplicate-rule error, and two identical calls
against a duplicate-reporting client produce no raise and exactly one
warning (on the second call). -/
theorem C9_add_ingress_idempotent :
    (∀ res : ClientRes, (SecurityManager.add_ingress_rule res).1 = true ↔
      ∃ m, res = ClientRes.err m ∧
        containsSubstr m "InvalidPermission.Duplicate" = false) ∧
    (∀ (st : FakeSG) (sg protocol : String) (f t : Int) (cidr : String),
      (sg, protocol, f, t, cidr) ∉ st.rules →
      twoCallOutcome st sg protocol f t cidr = ((false, false), (false, true))) := by
  constructor
  · intro res
    cases res with
    | ok =>
      simp [SecurityManager.add_ingress_rule]
    | err m =>
      by_cases hd : containsSubstr m "InvalidPermission.Duplicate" = true
      · simp [SecurityManager.add_ingress_rule, hd]
      · rw [Bool.not_eq_true] at hd
        simp [SecurityManager.add_ingress_rule, hd]
  · intro st sg protocol f t cidr hmem
    have h1 : fakeAuthorize st sg protocol f t cidr =
        ({ rules := st.rules ++ [(sg, protocol, f, t, cidr)] }, ClientRes.ok) := by
      simp [fakeAuthorize, hmem]
    have h2mem : (sg, protocol, f, t, cidr) ∈ st.rules ++ [(sg, protocol, f, t, cidr)] := by
      simp
    have h2 : fakeAuthorize { rules := st.rules ++ [(sg, protocol, f, t, cidr)] }
        sg protocol f t cidr =
        ({ rules := st.rules ++ [(sg, protocol, f, t, cidr)] },
         ClientRes.err "An error occurred (InvalidPermission.Duplicate) when calling the AuthorizeSecurityGroupIngress operation") := by
      simp [fakeAuthorize, h2mem]
    have hdup : SecurityManager.add_ingress_rule
        (ClientRes.err "An error occurred (InvalidPermission.Duplicate) when calling the AuthorizeSecurityGroupIngress operation") =
        (false, true) := by decide
    simp only [twoCallOutcome, h1, h2, hdup]
    rfl

/-- C9 witness: the two-call scenario evaluated from an empty rule set. -/
theorem C9_witness :
    (("sg-1", "tcp", (443 : Int), (443 : Int), "0.0.0.0/0") ∉ (FakeSG.mk []).rules) ∧
    twoCallOutcome (FakeSG.mk []) "sg-1" "tcp" 443 443 "0.0.0.0/0" =
      ((false, false), (false, true)) :=
  ⟨by decide,
    C9_add_ingress_idempotent.2 (FakeSG.mk []) "sg-1" "tcp" 443 443 "0.0.0.0/0" (by decide)⟩

/-- C5: a dry-run deployment returns success exactly when the network
CIDR and every subnet CIDR are valid IPv4 network blocks, validates the
subnet CIDRs only up to and including the first invalid one, and issues
no provider call. -/
theorem C5_dry_run (c : Config) (p : Provider) :
    ((_dry_run_validation c).1 = true ↔
      (validate_cidr c.cidr = true ∧ ∀ sp ∈ c.subnets, validate_cidr sp.cidr = true)) ∧
    ((_dry_run_validation c).2 =
      if validate_cidr c.cidr then
        c.cidr :: checkedUpTo (c.subnets.map (fun sp => sp.cidr))
      else [c.cidr]) ∧
    deploy c p true = ((_dry_run_validation c).1, initState, []) := by
  refine ⟨?_, ?_, by simp [deploy]⟩
  · by_cases hv : validate_cidr c.cidr = true
    · rcases hrec : dryRunSubnets c.subnets with ⟨ok, tr⟩
      have hok := dryRunSubnets_ok c.subnets
      rw [hrec] at hok
      simp only [_dry_run_validation, hv, if_true, hrec]
      constructor
      · intro h
        exact ⟨trivial, hok.mp h⟩
      · intro h
        exact hok.mpr h.2
    · rw [Bool.not_eq_true] at hv
      simp only [_dry_run_validation, hv, Bool.false_eq_true, if_false]
      constructor
      · intro hcon
        cases hcon
      · intro h
        exact h.1.elim
  · by_cases hv : validate_cidr c.cidr = true
    · rcases hrec : dryRunSubnets c.subnets with ⟨ok, tr⟩
      have htr := dryRunSubnets_trace c.subnets
      rw [hrec] at htr
      simp only [_dry_run_validation, hv, if_true, hrec]
      simp only at htr
      rw [htr]
    · rw [Bool.not_eq_true] at hv
      simp only [_dry_run_validation, hv, Bool.false_eq_true, if_false]

/-- C5 witness: on the §8 scenario configuration the dry run succeeds,
validates the network CIDR and both subnet CIDRs in order, and issues no
provider call. -/
theorem C5_witness :
    ((_dry_run_validation cW).1 = true ↔
      (validate_cidr cW.cidr = true ∧ ∀ sp ∈ cW.subnets, validate_cidr sp.cidr = true)) ∧
    deploy cW pOK true = ((_dry_run_validation cW).1, initState, []) :=
  ⟨(C5_dry_run cW pOK).1, (C5_dry_run cW pOK).2.2⟩

/-- C4: NAT-gateway creation is attempted exactly when the configuration
enables it and a public-tier subnet is present in the state (identifiers
being non-empty, as real ones are); the chosen subnet is the first public
subnet in insertion order; when NAT is enabled with no public subnet the
step succeeds with only a warning, so no default route is added. -/
theorem C4_nat_gateway_iff (c : Config) (p : Provider) (st : DeployState)
    (hids : ∀ kv ∈ st.subnets, kv.2.id ≠ "")
    (st' : DeployState) (Δ : List Event) (ok : Bool)
    (h : _create_nat_gateway c p st = (st', Δ, ok)) :
    ((∃ a b rr, Event.createNatGateway a b rr ∈ Δ) ↔
      (c.natEnabled = true ∧ ∃ kv ∈ st.subnets, kv.2.type = "public")) ∧
    (∀ a b rr, Event.createNatGateway a b rr ∈ Δ →
      ∃ kv, st.subnets.find? (fun kv => kv.2.type == "public") = some kv ∧ a = kv.2.id) ∧
    (c.natEnabled = true → (∀ kv ∈ st.subnets, kv.2.type ≠ "public") →
      ok = true ∧ Δ = [Event.warnNoPublicSubnet]) := by
  have hiff : truthyS ((st.subnets.find? (fun kv => kv.2.type == "public")).map
      (fun kv => kv.2.id)) = true ↔ ∃ kv ∈ st.subnets, kv.2.type = "public" := by
    cases hf : st.subnets.find? (fun kv => kv.2.type == "public") with
    | none =>
      rw [List.find?_eq_none] at hf
      refine iff_of_false (by simp [truthyS]) ?_
      rintro ⟨kv, hkv, hty⟩
      exact hf kv hkv (by simp [hty])
    | some kv0 =>
      have hmem := List.mem_of_find?_eq_some hf
      have hty : kv0.2.type = "public" := by
        have := List.find?_some hf
        simpa using this
      have hid : kv0.2.id ≠ "" := hids kv0 hmem
      rw [Option.map_some']
      exact iff_of_true (truthyS_of_ne hid) ⟨kv0, hmem, hty⟩
  cases hne : c.natEnabled with
  | false =>
    simp only [_create_nat_gateway, hne, Bool.not_false, if_true, Prod.mk.injEq] at h
    obtain ⟨h1, h2, h3⟩ := h
    subst h1; subst h2; subst h3
    refine ⟨?_, by simp, by simp⟩
    refine iff_of_false ?_ (by simp)
    rintro ⟨a, b, rr, hm⟩
    cases hm
  | true =>
    by_cases hpub : truthyS ((st.subnets.find? (fun kv => kv.2.type == "public")).map
        (fun kv => kv.2.id)) = true
    · have hex := hiff.mp hpub
      cases hf : st.subnets.find? (fun kv => kv.2.type == "public") with
      | none =>
        rw [hf] at hpub
        simp [truthyS] at hpub
      | some kv0 =>
        cases hcall : p.create_nat_gateway
            (((st.subnets.find? (fun kv => kv.2.type == "public")).map
              (fun kv => kv.2.id)).getD "") (c.vpc_name ++ "-nat") with
        | none =>
          simp only [_create_nat_gateway, hne, Bool.not_true, Bool.false_eq_true, if_false,
            hpub, if_true, hcall, Prod.mk.injEq] at h
          obtain ⟨h1, h2, h3⟩ := h
          subst h1; subst h2; subst h3
          refine ⟨iff_of_true ⟨_, _, _, List.mem_cons_self _ _⟩ ⟨rfl, hex⟩, ?_, ?_⟩
          · intro a b rr hm
            simp only [List.mem_singleton] at hm
            cases hm
            exact ⟨kv0, rfl, by rw [hf]; rfl⟩
          · intro _ hnopub
            rcases hex with ⟨kv, hkv, hty⟩
            exact absurd hty (hnopub kv hkv)
        | some pr =>
          rcases pr with ⟨nat_id, eip⟩
          cases hroute : p.create_route (VPCManager.add_route_params
              ((dictGet st.route_tables "private").getD "") "0.0.0.0/0" none (some nat_id)) with
          | none =>
            simp only [_create_nat_gateway, hne, Bool.not_true, Bool.false_eq_true, if_false,
              hpub, if_true, hcall, hroute, Prod.mk.injEq] at h
            obtain ⟨h1, h2, h3⟩ := h
            subst h1; subst h2; subst h3
            refine ⟨iff_of_true ⟨_, _, _, List.mem_cons_self _ _⟩ ⟨rfl, hex⟩, ?_, ?_⟩
            · intro a b rr hm
              simp only [List.mem_cons, List.not_mem_nil, or_false] at hm
              rcases hm with hm | hm
              · cases hm
                exact ⟨kv0, rfl, by rw [hf]; rfl⟩
              · cases hm
            · intro _ hnopub
              rcases hex with ⟨kv, hkv, hty⟩
              exact absurd hty (hnopub kv hkv)
          | some uu =>
            simp only [_create_nat_gateway, hne, Bool.not_true, Bool.false_eq_true, if_false,
              hpub, if_true, hcall, hroute, Prod.mk.injEq] at h
            obtain ⟨h1, h2, h3⟩ := h
            subst h1; subst h2; subst h3
            refine ⟨iff_of_true ⟨_, _, _, List.mem_cons_self _ _⟩ ⟨rfl, hex⟩, ?_, ?_⟩
            · intro a b rr hm
              simp only [List.mem_cons, List.not_mem_nil, or_false] at hm
              rcases hm with hm | hm
              · cases hm
                exact ⟨kv0, rfl, by rw [hf]; rfl⟩
              · cases hm
            · intro _ hnopub
              rcases hex with ⟨kv, hkv, hty⟩
              exact absurd hty (hnopub kv hkv)
    · rw [Bool.not_eq_true] at hpub
      simp only [_create_nat_gateway, hne, Bool.not_true, Bool.false_eq_true, if_false,
        hpub, Bool.not_false, if_true, Prod.mk.injEq] at h
      obtain ⟨h1, h2, h3⟩ := h
      subst h1; subst h2; subst h3
      refine ⟨?_, by simp, fun _ _ => ⟨rfl, rfl⟩⟩
      refine iff_of_false ?_ ?_
      · rintro ⟨a, b, rr, hm⟩
        simp only [List.mem_singleton] at hm
        cases hm
      · rintro ⟨-, hex⟩
        rw [Bool.eq_false_iff] at hpub
        exact hpub (hiff.mpr hex)

/-- C4 witness: with NAT enabled and two subnets whose first public one
is `b`, the creation call targets exactly that subnet's identifier. -/
theorem C4_witness :
    (∀ kv ∈ stTD.subnets, kv.2.id ≠ "") ∧
    ((∃ a b rr, Event.createNatGateway a b rr ∈
        (_create_nat_gateway cW pOK stTD).2.1) ↔
      (cW.natEnabled = true ∧ ∃ kv ∈ stTD.subnets, kv.2.type = "public")) := by
  refine ⟨by decide, ?_⟩
  rcases hh : _create_nat_gateway cW pOK stTD with ⟨st', Δ, ok⟩
  have := (C4_nat_gateway_iff cW pOK stTD (by decide) st' Δ ok hh).1
  simpa [hh] using this

/-- C1: every non-dry-run deployment issues its provider calls in the
fixed pipeline order (event phases never decrease along the trace), and a
successful deployment performs every unconditional step: one network
create, one internet-gateway create, two route-table creates, one default
route to the internet gateway, one subnet create per configured subnet,
one security group per configured group, and a final state export as the
last action. -/
theorem C1_deploy_fixed_order (c : Config) (p : Provider) (hwf : ProviderWF p) :
    ((deployTrace c p).map Event.phase).Pairwise (· ≤ ·) ∧
    (deployOk c p = true →
      kcount EKind.vpcK (deployTrace c p) = 1 ∧
      kcount EKind.igwK (deployTrace c p) = 1 ∧
      kcount EKind.rtK (deployTrace c p) = 2 ∧
      (deployTrace c p).countP isIgwRoute = 1 ∧
      kcount EKind.subnetK (deployTrace c p) = c.subnets.length ∧
      kcount EKind.sgK (deployTrace c p) = c.security_groups.length ∧
      kcount EKind.exportK (deployTrace c p) = 1 ∧
      (deployTrace c p).getLast? =
        some (Event.exportState (c.vpc_name ++ "-state.json") (deployState c p))) := by
  rcases hd : deploy c p false with ⟨r, s, tr⟩
  have htr : deployTrace c p = tr := by simp [deployTrace, hd]
  have hst : deployState c p = s := by simp [deployState, hd]
  have hok : deployOk c p = r := by simp [deployOk, hd]
  obtain ⟨-, hexp, -, hsorted, -⟩ := deploy_run_facts c p r s tr hd
  rw [htr, hst, hok]
  refine ⟨hsorted hwf, ?_⟩
  intro hr
  subst hr
  obtain ⟨c1, c2, c3, c4, c5, c6, c7, -, -⟩ := deploy_ok_facts c p s tr hd
  exact ⟨c1, c2, c3, c7 hwf, c4, c5, c6, (hexp rfl).2⟩

/-- C1 witness: the §8 scenario deployed against the all-succeeding
provider runs in order and performs every step. -/
theorem C1_witness :
    ProviderWF pOK ∧ deployOk cW pOK = true ∧
    ((deployTrace cW pOK).map Event.phase).Pairwise (· ≤ ·) ∧
    kcount EKind.subnetK (deployTrace cW pOK) = cW.subnets.length := by
  have hwf : ProviderWF pOK := by
    intro v n g hg
    injection hg with hg
    rw [← hg]
    decide
  refine ⟨hwf, by decide, (C1_deploy_fixed_order cW pOK hwf).1, ?_⟩
  exact ((C1_deploy_fixed_order cW pOK hwf).2 (by decide)).2.2.2.2.1

/-- C2: the state file is written (the export event occurs) exactly when
every pipeline step succeeded; on success the export is the final action
and persists exactly the in-memory state. -/
theorem C2_persist_iff_success (c : Config) (p : Provider) :
    ((∃ fn ds, Event.exportState fn ds ∈ deployTrace c p) ↔ deployOk c p = true) ∧
    (deployOk c p = true →
      (deployTrace c p).getLast? =
        some (Event.exportState (c.vpc_name ++ "-state.json") (deployState c p))) := by
  rcases hd : deploy c p false with ⟨r, s, tr⟩
  have htr : deployTrace c p = tr := by simp [deployTrace, hd]
  have hst : deployState c p = s := by simp [deployState, hd]
  have hok : deployOk c p = r := by simp [deployOk, hd]
  obtain ⟨hno, hexp, -, -, -⟩ := deploy_run_facts c p r s tr hd
  rw [htr, hst, hok]
  constructor
  · constructor
    · rintro ⟨fn, ds, hm⟩
      cases r with
      | false => exact absurd hm (hno rfl fn ds)
      | true => rfl
    · intro hr
      subst hr
      exact ⟨_, _, (hexp rfl).1⟩
  · intro hr
    subst hr
    exact (hexp rfl).2

/-- C2 witness: on the successful §8 scenario the export event is present
and last; instantiating the iff the other way on the route-failing
provider shows no export happens on failure. -/
theorem C2_witness :
    (deployTrace cW pOK).getLast? =
      some (Event.exportState (cW.vpc_name ++ "-state.json") (deployState cW pOK)) ∧
    (∃ fn ds, Event.exportState fn ds ∈ deployTrace cW pOK) ∧
    ¬(∃ fn ds, Event.exportState fn ds ∈ deployTrace cC6 pC6) := by
  refine ⟨(C2_persist_iff_success cW pOK).2 (by decide),
    (C2_persist_iff_success cW pOK).1.mpr (by decide), ?_⟩
  intro hex
  have := (C2_persist_iff_success cC6 pC6).1.mp hex
  rw [show deployOk cC6 pC6 = false from by decide] at this
  cases this

/-- C3: the deletion calls issued by a teardown run form an initial
segment of the fixed-order plan (NAT gateway, internet gateway, subnets,
route tables, security groups, network), the whole plan exactly when the
run succeeds; in particular a failing step prevents every deletion call
of every later category. -/
theorem C3_teardown_order (st : DeployState) (p : Provider) :
    (∃ rest, teardownPlan st = ((teardown st p).2).map Prod.fst ++ rest) ∧
    ((teardown st p).1 = true → ((teardown st p).2).map Prod.fst = teardownPlan st) := by
  rcases hT : teardown st p with ⟨r, tr⟩
  exact teardown_facts st p r tr hT

/-- C3 witness: a full-state teardown against the all-succeeding provider
issues exactly the planned sequence; against the failing provider the
issued calls still form an initial segment of the plan. -/
theorem C3_witness :
    (teardown stTD pOK).1 = true ∧
    ((teardown stTD pOK).2).map Prod.fst = teardownPlan stTD ∧
    (∃ rest, teardownPlan stTD = ((teardown stTD pC6).2).map Prod.fst ++ rest) :=
  ⟨by decide, (C3_teardown_order stTD pOK).2 (by decide), (C3_teardown_order stTD pC6).1⟩

/-- C6 counterexample: a provider whose `create_route` call fails right
after `create_route_table` succeeded leaves the successfully returned
route-table identifier out of the state, refuting the unrestricted
if-and-only-if. -/
theorem C6_counterexample :
    deployOk cC6 pC6 = false ∧
    Event.createRouteTable "vpc-1" "test-public-rt" (some "rt-1") ∈ deployTrace cC6 pC6 ∧
    "rt-1" ∈ createdIds (deployTrace cC6 pC6) ∧
    "rt-1" ∉ stateIds (deployState cC6 pC6) := by
  refine ⟨by decide, by decide, by decide, by decide⟩

/-- C6 (amended): identifiers recorded in the deployment state always
come from successful create calls; conversely, on a fully successful
deployment with distinct configured names, every identifier returned by a
successful create call is recorded in the state.  (When a step fails
after a create call but before the corresponding state write, that
identifier is returned yet never recorded, as the counterexample shows.) -/
theorem C6_state_ids_amended (c : Config) (p : Provider) :
    stateIds (deployState c p) ⊆ createdIds (deployTrace c p) ∧
    (deployOk c p = true → (c.subnets.map SubnetSpec.name).Nodup →
      (c.security_groups.map Prod.fst).Nodup →
      createdIds (deployTrace c p) ⊆ stateIds (deployState c p)) := by
  rcases hd : deploy c p false with ⟨r, s, tr⟩
  have htr : deployTrace c p = tr := by simp [deployTrace, hd]
  have hst : deployState c p = s := by simp [deployState, hd]
  have hok : deployOk c p = r := by simp [deployOk, hd]
  obtain ⟨-, -, hsub, -, -⟩ := deploy_run_facts c p r s tr hd
  rw [htr, hst, hok]
  refine ⟨hsub, ?_⟩
  intro hr hn1 hn2
  subst hr
  obtain ⟨-, -, -, -, -, -, -, -, hconv⟩ := deploy_ok_facts c p s tr hd
  exact hconv hn1 hn2

/-- C6 witness: on the successful §8 scenario the recorded identifiers
and the successfully created identifiers coincide. -/
theorem C6_witness :
    deployOk cW pOK = true ∧
    stateIds (deployState cW pOK) ⊆ createdIds (deployTrace cW pOK) ∧
    createdIds (deployTrace cW pOK) ⊆ stateIds (deployState cW pOK) :=
  ⟨by decide, (C6_state_ids_amended cW pOK).1,
    (C6_state_ids_amended cW pOK).2 (by decide) (by decide) (by decide)⟩

/-- C7: when every configured subnet tier is one of the two allowed
literals (as the configuration schema requires), every subnet recorded in
the deployment state and every subnet-creation call carries a tier equal
to `public` or `private`. -/
theorem C7_subnet_tiers (c : Config) (p : Provider)
    (htier : ∀ sc ∈ c.subnets, sc.type = "public" ∨ sc.type = "private") :
    (∀ kv ∈ (deployState c p).subnets,
      kv.2.type = "public" ∨ kv.2.type = "private") ∧
    (∀ e ∈ deployTrace c p, ∀ v cd az n ty rr,
      e = Event.createSubnet v cd az n ty rr → ty = "public" ∨ ty = "private") := by
  rcases hd : deploy c p false with ⟨r, s, tr⟩
  have htr : deployTrace c p = tr := by simp [deployTrace, hd]
  have hst : deployState c p = s := by simp [deployState, hd]
  obtain ⟨-, -, -, -, ht⟩ := deploy_run_facts c p r s tr hd
  rw [htr, hst]
  exact ht htier

/-- C7 witness: the §8 scenario state records only the two allowed
tiers. -/
theorem C7_witness :
    (∀ sc ∈ cW.subnets, sc.type = "public" ∨ sc.type = "private") ∧
    (∀ kv ∈ (deployState cW pOK).subnets,
      kv.2.type = "public" ∨ kv.2.type = "private") :=
  ⟨by decide, (C7_subnet_tiers cW pOK (by decide)).1⟩

/-- C8 counterexample: a configuration with two subnet specs sharing one
name deploys successfully, yet the persisted `subnets` mapping has one
entry against two configured specs, refuting the unrestricted count
claim. -/
theorem C8_counterexample :
    deployOk cC8 pOK = true ∧
    cC8.subnets.length = 2 ∧
    (deployState cC8 pOK).subnets.length = 1 := by
  refine ⟨by decide, by decide, by decide⟩

/-- C8 (amended): on every successful deployment whose configured subnet
names are distinct, the persisted state's `subnets` mapping has exactly
the configured subnet names, in the same count, each entry carrying the
identifier returned by its subnet-creation call; the exported content is
that state.  (With duplicate names later specs overwrite earlier ones, as
the counterexample shows.) -/
theorem C8_subnets_mapping_amended (c : Config) (p : Provider)
    (hn : (c.subnets.map SubnetSpec.name).Nodup)
    (hok : deployOk c p = true) :
    ((deployState c p).subnets.map Prod.fst = c.subnets.map SubnetSpec.name) ∧
    ((deployState c p).subnets.length = c.subnets.length) ∧
    (∀ kv ∈ (deployState c p).subnets, ∃ v cd az ty,
      Event.createSubnet v cd az kv.1 ty (some kv.2.id) ∈ deployTrace c p) ∧
    Event.exportState (c.vpc_name ++ "-state.json") (deployState c p) ∈ deployTrace c p := by
  rcases hd : deploy c p false with ⟨r, s, tr⟩
  have htr : deployTrace c p = tr := by simp [deployTrace, hd]
  have hst : deployState c p = s := by simp [deployState, hd]
  have hokr : deployOk c p = r := by simp [deployOk, hd]
  rw [hokr] at hok
  subst hok
  obtain ⟨-, hexp, -, -, -⟩ := deploy_run_facts c p true s tr hd
  obtain ⟨-, -, -, -, -, -, -, hsubn, -⟩ := deploy_ok_facts c p s tr hd
  obtain ⟨ids, hlen, hsn, hev⟩ := hsubn hn
  rw [htr, hst]
  have hzlen : (c.subnets.zip ids).length = c.subnets.length := by
    rw [List.length_zip, hlen, Nat.min_self]
  refine ⟨?_, ?_, ?_, (hexp rfl).1⟩
  · rw [hsn, List.map_map]
    have : (c.subnets.zip ids).map
        (Prod.fst ∘ fun q => (q.1.name, SubnetInfo.mk q.2 q.1.cidr q.1.az q.1.type)) =
        (c.subnets.zip ids).map (fun q => q.1.name) := rfl
    rw [this]
    have hfst : (c.subnets.zip ids).map (fun q => q.1.name) =
        ((c.subnets.zip ids).map Prod.fst).map SubnetSpec.name := by
      rw [List.map_map]
      rfl
    rw [hfst, List.map_fst_zip c.subnets ids (le_of_eq hlen.symm)]
  · rw [hsn, List.length_map, hzlen]
  · intro kv hkv
    rw [hsn] at hkv
    rcases List.mem_map.mp hkv with ⟨q, hq, hkveq⟩
    obtain ⟨v, hv⟩ := hev q hq
    subst hkveq
    exact ⟨v, q.1.cidr, q.1.az, q.1.type, hv⟩

/-- C8 witness: the §8 scenario's persisted mapping matches the two
configured subnet names exactly. -/
theorem C8_witness :
    (cW.subnets.map SubnetSpec.name).Nodup ∧ deployOk cW pOK = true ∧
    (deployState cW pOK).subnets.map Prod.fst = cW.subnets.map SubnetSpec.name ∧
    (deployState cW pOK).subnets.length = cW.subnets.length :=
  ⟨by decide, by decide,
    (C8_subnets_mapping_amended cW pOK (by decide) (by decide)).1,
    (C8_subnets_mapping_amended cW pOK (by decide) (by decide)).2.1⟩

end NetworkBuilder
